import Mathlib

/-!
Form validator (src/script.js): embedding and verified properties

The class `FormValidator` of `src/script.js` is embedded as pure functions on an explicit
`State` record: one field per piece of page or object state the methods read or write.

Conventions.
* A value typed by the user (`input.value`) is a JavaScript string, modelled as the list of
  its UTF-16 code units (`JSString`), so that `.length` and regular-expression matching
  (no `u` flag in the source) count code units as the engine does.
* Texts the script itself writes (`textContent`, `aria-label`) come from literals and are
  Lean strings.
* Page elements the script dereferences without a guard are taken to exist; elements it
  guards (`if (x)`, `x?.`) are optional in the state, and a property of what such an
  element shows is stated for the pages that have it.
-/

namespace FormValidator

/-! ## JavaScript strings -/

/-- A JavaScript string: its sequence of UTF-16 code units. -/
abbrev JSString := List Nat

/-- UTF-16 code units of one Unicode scalar value. -/
def utf16Char (c : Char) : List Nat :=
  if c.toNat < 0x10000 then [c.toNat]
  else [0xD800 + (c.toNat - 0x10000) / 0x400, 0xDC00 + (c.toNat - 0x10000) % 0x400]

/-- UTF-16 code units of a string literal. -/
def utf16 (s : String) : JSString :=
  s.toList.flatMap utf16Char

/-- ECMAScript `LineTerminator` code units: LF, CR, LS, PS. -/
def isLineTerminator (c : Nat) : Bool :=
  c == 0x0A || c == 0x0D || c == 0x2028 || c == 0x2029

/-- ECMAScript `WhiteSpace` code units: TAB, VT, FF, SP, NBSP, ZWNBSP and category Zs. -/
def isWhiteSpace (c : Nat) : Bool :=
  c == 0x09 || c == 0x0B || c == 0x0C || c == 0x20 || c == 0xA0 || c == 0xFEFF ||
  c == 0x1680 || (0x2000 ≤ c && c ≤ 0x200A) || c == 0x202F || c == 0x205F || c == 0x3000

/-- What `String.prototype.trim` strips: white space and line terminators. -/
def isTrimmed (c : Nat) : Bool :=
  isWhiteSpace c || isLineTerminator c

/-- `String.prototype.trim`: strips white space and line terminators from both ends. -/
def trim (s : JSString) : JSString :=
  ((s.dropWhile isTrimmed).reverse.dropWhile isTrimmed).reverse

/-! ## Regular expressions

Only the constructs the source's literals use: a character or class, `.`, concatenation
and the quantifiers, all of which are `{lo,hi}` (`?` is `{0,1}`, `*` is `{0,}`, `+` is
`{1,}`). -/

/-- One member of a character class: a character or a range `a-z`. -/
inductive ClassItem where
  | ch (c : Char)
  | range (lo hi : Char)
  | chars (cs : String)

/-- Whether a code unit belongs to a class member. -/
def ClassItem.has : ClassItem → Nat → Bool
  | .ch c, x => x == c.toNat
  | .range lo hi, x => lo.toNat ≤ x && x ≤ hi.toNat
  | .chars cs, x => cs.toList.any fun c => x == c.toNat

/-- Whether a code unit belongs to a class `[...]`. -/
def classHas (items : List ClassItem) (x : Nat) : Bool :=
  items.any fun i => i.has x

/-- Regular expression bodies. -/
inductive Re where
  | cls (items : List ClassItem)
  | dot
  | seq (a b : Re)
  | rep (a : Re) (lo : Nat) (hi : Option Nat)

/-- Apply a matcher exactly `n` times in sequence; every way of doing so. -/
def repeatN (f : JSString → List JSString) : Nat → JSString → List JSString
  | 0, s => [s]
  | n + 1, s => (f s).flatMap (repeatN f n)

/-- Apply a matcher between 0 and `n` times in sequence; every way of doing so. -/
def repeatUpTo (f : JSString → List JSString) : Nat → JSString → List JSString
  | 0, s => [s]
  | n + 1, s => s :: (f s).flatMap (repeatUpTo f n)

/-- Backtracking matcher: every remainder of the input that some match of the expression at
the start of the input leaves. An unbounded quantifier needs no more extra iterations than
the input has code units, since an iteration that consumes nothing reaches no new
position. -/
def matchRe : Re → JSString → List JSString
  | .cls items, s =>
    match s with
    | [] => []
    | c :: cs => if classHas items c then [cs] else []
  | .dot, s =>
    match s with
    | [] => []
    | c :: cs => if isLineTerminator c then [] else [cs]
  | .seq a b, s => (matchRe a s).flatMap (matchRe b)
  | .rep a lo (some hi), s =>
    if hi < lo then [] else (repeatN (matchRe a) lo s).flatMap (repeatUpTo (matchRe a) (hi - lo))
  | .rep a lo none, s =>
    (repeatN (matchRe a) lo s).flatMap fun r => repeatUpTo (matchRe a) r.length r

/-- A regular-expression literal without flags: optional leading `^`, body, optional
trailing `$`. -/
structure Pattern where
  anchorStart : Bool
  body : Re
  anchorEnd : Bool

/-- Whether the body matches at the start of `s`, up to the end of input when `$` is there. -/
def Pattern.matchesAt (p : Pattern) (s : JSString) : Bool :=
  (matchRe p.body s).any fun r => !p.anchorEnd || r.isEmpty

/-- The method `RegExp.prototype.test` of a literal without the `g` or `y` flag: whether
the pattern matches at some start position (only position 0 with a leading `^`). -/
def Pattern.test (p : Pattern) (s : JSString) : Bool :=
  if p.anchorStart then p.matchesAt s else s.tails.any p.matchesAt

/-! ## The rule set (constructor, lines 26-36) -/

/-- The class `[a-zA-Z0-9]`. -/
def alnumClass : List ClassItem :=
  [.range 'a' 'z', .range 'A' 'Z', .range '0' '9']

/-- The class `[a-zA-Z0-9-]`. -/
def alnumHyphenClass : List ClassItem :=
  [.range 'a' 'z', .range 'A' 'Z', .range '0' '9', .ch '-']

/-- The class `[a-zA-Z0-9.!#$%&'*+/=?^_BACKTICK{|}~-]` of the local part. -/
def localClass : List ClassItem :=
  [.range 'a' 'z', .range 'A' 'Z', .range '0' '9', .chars ".!#$%&'*+/=?^_`\x7b|\x7d~-"]

/-- The sub-expression `[a-zA-Z0-9](?:[a-zA-Z0-9-]{0,61}[a-zA-Z0-9])?`, which occurs twice
in the email pattern. -/
def labelRe : Re :=
  .seq (.cls alnumClass)
    (.rep (.seq (.rep (.cls alnumHyphenClass) 0 (some 61)) (.cls alnumClass)) 0 (some 1))

/-- The field `this.emailRegex`:
`^[local]+@` label `(?:\.` label `)*$`. -/
def emailRegex : Pattern where
  anchorStart := true
  body :=
    .seq (.seq (.seq (.rep (.cls localClass) 1 none) (.cls [.ch '@'])) labelRe)
      (.rep (.seq (.cls [.ch '.']) labelRe) 0 none)
  anchorEnd := true

/-- Keys of `this.passwordRules`. -/
inductive RuleId where
  | length
  | uppercase
  | lowercase
  | digit
  | special
deriving DecidableEq, Repr

/-- One entry of `this.passwordRules`: `min` is present for `length` only. -/
structure RuleConfig where
  min : Option Nat
  regex : Pattern

/-- The field `this.passwordRules`. -/
def passwordRules : RuleId → RuleConfig
  | .length => { min := some 8, regex := ⟨false, .rep .dot 8 none, false⟩ }
  | .uppercase => { min := none, regex := ⟨false, .cls [.range 'A' 'Z'], false⟩ }
  | .lowercase => { min := none, regex := ⟨false, .cls [.range 'a' 'z'], false⟩ }
  | .digit => { min := none, regex := ⟨false, .cls [.range '0' '9'], false⟩ }
  | .special => { min := none, regex := ⟨false, .cls [.chars "!@#$%^&*(),.?\":\x7b\x7d|<>"], false⟩ }

/-- The order of `Object.keys(this.passwordRules)`: insertion order. -/
def ruleOrder : List RuleId :=
  [.length, .uppercase, .lowercase, .digit, .special]

/-! ## Page and object state -/

/-- The field `this.validationState`. -/
structure ValidationState where
  email : Bool
  password : Bool
  confirmPassword : Bool
deriving DecidableEq, Repr

/-- The `.field-group` of an input together with the field's error element (`#email-error`,
`#password-error`, `#confirm-password-error`). `errorInGroup` says whether
`fieldGroup.querySelector('.error-message')` finds that element; the source guards the
lookup with `if (errorElement)`. -/
structure FieldGroup where
  valid : Bool
  error : Bool
  errorText : String
  errorShown : Bool
  errorInGroup : Bool
deriving DecidableEq, Repr

/-- One `[data-rule]` element of the checklist: its `valid` and `invalid` classes and the
text of its `.rule-icon`. -/
structure RuleView where
  valid : Bool
  invalid : Bool
  icon : String
deriving DecidableEq, Repr

/-- The five `[data-rule]` elements. -/
structure RuleViews where
  length : RuleView
  uppercase : RuleView
  lowercase : RuleView
  digit : RuleView
  special : RuleView
deriving DecidableEq, Repr

/-- The element `[data-rule="rule"]`. -/
def RuleViews.get (v : RuleViews) : RuleId → RuleView
  | .length => v.length
  | .uppercase => v.uppercase
  | .lowercase => v.lowercase
  | .digit => v.digit
  | .special => v.special

/-- Replace the element `[data-rule="rule"]`. -/
def RuleViews.set (v : RuleViews) (rule : RuleId) (x : RuleView) : RuleViews :=
  match rule with
  | .length => { v with length := x }
  | .uppercase => { v with uppercase := x }
  | .lowercase => { v with lowercase := x }
  | .digit => { v with digit := x }
  | .special => { v with special := x }

/-- The element `#password-success`: its text and its `show` class. -/
structure SuccessView where
  text : String
  shown : Bool
deriving DecidableEq, Repr

/-- The submit button: `disabled`, `aria-label` and `textContent`. -/
structure Button where
  disabled : Bool
  ariaLabel : String
  text : String
deriving DecidableEq, Repr

/-- A password visibility toggle: `textContent` and `aria-label`. -/
structure Toggle where
  text : String
  ariaLabel : String
deriving DecidableEq, Repr

/-- The `type` of a password input. -/
inductive InputType where
  | password
  | text
deriving DecidableEq, Repr

/-- Elements that can hold focus. -/
inductive Element where
  | body
  | emailInput
  | passwordInput
  | confirmPasswordInput
  | submitBtn
  | passwordToggle
  | confirmPasswordToggle
  | successModalOk
  | successModalClose
  | other (n : Nat)
deriving DecidableEq, Repr

/-- The element `#successModal`: its `show` class, its `aria-hidden` attribute, the buttons
inside it in document order, and the `keydown` listeners attached by `openSuccessModal`
(each closure has its own identity, a number here). -/
structure Modal where
  shown : Bool
  ariaHidden : Option String
  buttons : List Element
  keydownTraps : List Nat
deriving DecidableEq, Repr

/-- Everything the methods read or write. -/
structure State where
  /-- The property `emailInput.value`. -/
  emailValue : JSString
  /-- The property `passwordInput.value`. -/
  passwordValue : JSString
  /-- The property `confirmPasswordInput.value`. -/
  confirmPasswordValue : JSString
  passwordType : InputType
  confirmPasswordType : InputType
  emailGroup : FieldGroup
  passwordGroup : FieldGroup
  confirmPasswordGroup : FieldGroup
  rules : RuleViews
  /-- Whether `#password-rules` has the class `show`. -/
  rulesShown : Bool
  /-- The element `#password-success`, when the page has one. -/
  successEl : Option SuccessView
  submitBtn : Button
  passwordToggle : Toggle
  confirmPasswordToggle : Toggle
  /-- Text of `#error-announcements`, when the element exists. -/
  liveRegion : Option String
  /-- The field `this.successModal`. -/
  successModal : Option Modal
  /-- Whether `this.successModalOk` is an element. -/
  successModalOk : Bool
  /-- The property `document.activeElement`. -/
  activeElement : Option Element
  /-- The field `this.lastFocusedElement`. -/
  lastFocusedElement : Option Element
  /-- The field `this._trapHandler`: the identity of the installed closure. -/
  trapHandler : Option Nat
  /-- Number of trap closures created so far (the next closure's identity). -/
  trapsCreated : Nat
  validationState : ValidationState
  /-- Completion callbacks scheduled by `handleSubmit` and not yet run. -/
  pendingCompletions : Nat
deriving DecidableEq, Repr

/-! ## Presentation helpers (lines 232-304) -/

/-- The method `showError(errorElement, fieldGroup, message)`. -/
def showError (g : FieldGroup) (message : String) : FieldGroup :=
  { g with errorText := message, errorShown := true, error := true, valid := false }

/-- The method `showSuccess(fieldGroup)`. -/
def showSuccess (g : FieldGroup) : FieldGroup :=
  { g with valid := true, error := false,
           errorShown := if g.errorInGroup then false else g.errorShown }

/-- The method `clearFieldState(fieldGroup)`. -/
def clearFieldState (g : FieldGroup) : FieldGroup :=
  { g with valid := false, error := false,
           errorShown := if g.errorInGroup then false else g.errorShown }

/-- The method `isFormValid()`: every value of `validationState` is `true`. -/
def isFormValid (s : State) : Bool :=
  [s.validationState.email, s.validationState.password,
    s.validationState.confirmPassword].all fun state => state == true

/-- The method `updateSubmitButton()`. -/
def updateSubmitButton (s : State) : State :=
  let isValid := isFormValid s
  { s with submitBtn :=
    { s.submitBtn with
      disabled := !isValid
      ariaLabel :=
        if isValid then "Submit form - all fields are valid"
        else "Submit form - please fix validation errors first" } }

/-- The method `showPasswordRules()`. -/
def showPasswordRules (s : State) : State :=
  { s with rulesShown := true }

/-- The method `hidePasswordRules()`. -/
def hidePasswordRules (s : State) : State :=
  { s with rulesShown := false }

/-- The method `togglePasswordVisibility(fieldType)`. -/
def togglePasswordVisibility (fieldType : String) (s : State) : State :=
  if fieldType == "password" then
    match s.passwordType with
    | .password =>
      { s with passwordType := .text, passwordToggle := ⟨"🙈", "Hide password"⟩ }
    | .text =>
      { s with passwordType := .password, passwordToggle := ⟨"👁️", "Show password"⟩ }
  else
    match s.confirmPasswordType with
    | .password =>
      { s with confirmPasswordType := .text,
               confirmPasswordToggle := ⟨"🙈", "Hide password"⟩ }
    | .text =>
      { s with confirmPasswordType := .password,
               confirmPasswordToggle := ⟨"👁️", "Show password"⟩ }

/-! ## Validators (lines 101-215) -/

/-- The method `validateEmail()`. -/
def validateEmail (s : State) : State :=
  let email := trim s.emailValue
  let fieldGroup := clearFieldState s.emailGroup
  if email = [] then
    updateSubmitButton
      { s with emailGroup := showError fieldGroup "Email address is required"
               validationState := { s.validationState with email := false } }
  else if !emailRegex.test email then
    updateSubmitButton
      { s with emailGroup := showError fieldGroup "Please enter a valid email address"
               validationState := { s.validationState with email := false } }
  else
    updateSubmitButton
      { s with emailGroup := showSuccess fieldGroup
               validationState := { s.validationState with email := true } }

/-- The method `validateConfirmPassword()`. -/
def validateConfirmPassword (s : State) : State :=
  let password := s.passwordValue
  let confirmPassword := s.confirmPasswordValue
  let fieldGroup := clearFieldState s.confirmPasswordGroup
  if confirmPassword = [] then
    updateSubmitButton
      { s with confirmPasswordGroup := showError fieldGroup "Please confirm your password"
               validationState := { s.validationState with confirmPassword := false } }
  else if password ≠ confirmPassword then
    updateSubmitButton
      { s with confirmPasswordGroup := showError fieldGroup "Passwords do not match"
               validationState := { s.validationState with confirmPassword := false } }
  else
    updateSubmitButton
      { s with confirmPasswordGroup := showSuccess fieldGroup
               validationState := { s.validationState with confirmPassword := true } }

/-- The test `isRuleValid` of one rule in the loop of `validatePassword`: the `length` rule
compares `password.length` with `min`, every other rule runs its `regex`. -/
def isRuleValid (rule : RuleId) (password : JSString) : Bool :=
  let ruleConfig := passwordRules rule
  if rule = .length then
    match ruleConfig.min with
    | some min => decide (password.length ≥ min)
    | none => false
  else ruleConfig.regex.test password

/-- Loop variables of `validatePassword`: the rule elements, `isValid`, `failedRules`. -/
structure RuleLoop where
  rules : RuleViews
  isValid : Bool
  failedRules : List RuleId
deriving DecidableEq, Repr

/-- One iteration of the `forEach` over `Object.keys(this.passwordRules)`. -/
def checkRule (password : JSString) (acc : RuleLoop) (rule : RuleId) : RuleLoop :=
  if isRuleValid rule password then
    { acc with rules := acc.rules.set rule { valid := true, invalid := false, icon := "✅" } }
  else
    { rules := acc.rules.set rule { valid := false, invalid := true, icon := "❌" }
      failedRules := acc.failedRules ++ [rule]
      isValid := false }

/-- Clearing `#password-success`: `if (successEl) { textContent = ''; remove 'show' }`. -/
def clearSuccess (e : Option SuccessView) : Option SuccessView :=
  e.map fun _ => { text := "", shown := false }

/-- The method `validatePassword()`. -/
def validatePassword (s : State) : State :=
  let password := s.passwordValue
  let fieldGroup := clearFieldState s.passwordGroup
  let loop := ruleOrder.foldl (checkRule password) ⟨s.rules, true, []⟩
  let s1 : State :=
    if password = [] then
      { s with rules := loop.rules
               passwordGroup := showError fieldGroup "Password is required"
               validationState := { s.validationState with password := false }
               rulesShown := false
               successEl := clearSuccess s.successEl }
    else if !loop.isValid then
      { s with rules := loop.rules
               passwordGroup := fieldGroup
               rulesShown := true
               successEl := clearSuccess s.successEl
               validationState := { s.validationState with password := false } }
    else
      { s with rules := loop.rules
               passwordGroup := showSuccess fieldGroup
               validationState := { s.validationState with password := true }
               rulesShown := false
               successEl :=
                 s.successEl.map fun _ =>
                   { text := "Password requirements satisfied", shown := true } }
  let s2 := if s1.confirmPasswordValue ≠ [] then validateConfirmPassword s1 else s1
  updateSubmitButton s2

/-! ## Announcements, submission and the modal (lines 306-436) -/

/-- The list `errors` built by `announceErrors()`. -/
def collectErrors (s : State) : List String :=
  (if !s.validationState.email && s.emailGroup.errorText ≠ ""
    then ["Email: " ++ s.emailGroup.errorText] else []) ++
  (if !s.validationState.password && s.passwordGroup.errorText ≠ ""
    then ["Password: " ++ s.passwordGroup.errorText] else []) ++
  (if !s.validationState.confirmPassword && s.confirmPasswordGroup.errorText ≠ ""
    then ["Confirm Password: " ++ s.confirmPasswordGroup.errorText] else [])

/-- The method `announceErrors()`: the live region is created when missing and its text
replaced, provided there is an error to announce. -/
def announceErrors (s : State) : State :=
  let errors := collectErrors s
  if errors.length > 0 then
    { s with liveRegion := some ("Form validation errors: " ++ ", ".intercalate errors) }
  else s

/-- The focus change of `element.focus()` on an element that can take focus. Outside this
definition: a target that cannot take focus (the body, a disabled button) is left unfocused
by the browser, and the blur and focus listeners that a focus change runs are the events
`emailBlur`, `passwordBlur`, `confirmPasswordBlur` and `passwordFocus` of `step`. -/
def focus (e : Element) (s : State) : State :=
  { s with activeElement := some e }

/-- The method `openSuccessModal()`. -/
def openSuccessModal (s : State) : State :=
  match s.successModal with
  | none => s
  | some modal =>
    let s1 := { s with lastFocusedElement := s.activeElement }
    let s2 := if s1.successModalOk then focus .successModalOk s1 else s1
    let trap := s2.trapsCreated
    { s2 with
      successModal :=
        some { modal with shown := true, ariaHidden := some "false",
                          keydownTraps := modal.keydownTraps ++ [trap] }
      trapHandler := some trap
      trapsCreated := trap + 1 }

/-- The method `closeSuccessModal()`. -/
def closeSuccessModal (s : State) : State :=
  match s.successModal with
  | none => s
  | some modal =>
    let modal1 := { modal with shown := false, ariaHidden := some "true" }
    let s1 :=
      match s.trapHandler with
      | some trap =>
        { s with successModal := some { modal1 with keydownTraps := modal1.keydownTraps.erase trap }
                 trapHandler := none }
      | none => { s with successModal := some modal1 }
    match s1.lastFocusedElement with
    | some e => focus e s1
    | none => s1

/-- The method `isModalOpen()`. -/
def isModalOpen (s : State) : Bool :=
  match s.successModal with
  | none => false
  | some modal => modal.shown

/-- The reset of one `[data-rule]` element in the completion callback. -/
def resetRule (_ : RuleView) : RuleView :=
  { valid := false, invalid := false, icon := "❌" }

/-- The callback `handleSubmit` passes to `setTimeout`. The call `this.form.reset()` puts
each input back to its default value, the empty string of an input without a `value`
attribute. -/
def completion (s : State) : State :=
  let s1 := openSuccessModal s
  let s2 : State :=
    { s1 with emailValue := [], passwordValue := [], confirmPasswordValue := []
              validationState := { email := false, password := false, confirmPassword := false } }
  let s3 := updateSubmitButton s2
  let s4 : State :=
    { s3 with submitBtn := { s3.submitBtn with text := "Register" }
              rules :=
                { length := resetRule s3.rules.length
                  uppercase := resetRule s3.rules.uppercase
                  lowercase := resetRule s3.rules.lowercase
                  digit := resetRule s3.rules.digit
                  special := resetRule s3.rules.special } }
  let s5 := hidePasswordRules s4
  { s5 with passwordType := .password, confirmPasswordType := .password
            passwordToggle := { s5.passwordToggle with text := "👁️" }
            confirmPasswordToggle := { s5.confirmPasswordToggle with text := "👁️" }
            pendingCompletions := s5.pendingCompletions - 1 }

/-- The method `handleSubmit(e)`: with an invalid form it announces the errors and returns;
otherwise it disables the button, relabels it and schedules `completion`. -/
def handleSubmit (s : State) : State :=
  if !isFormValid s then announceErrors s
  else
    { s with submitBtn := { s.submitBtn with disabled := true, text := "Registering..." }
             pendingCompletions := s.pendingCompletions + 1 }

/-! ## The key trap (lines 404-419) -/

/-- A `keydown` event: its `key` and its `shiftKey`. -/
structure KeyEvent where
  key : String
  shiftKey : Bool
deriving DecidableEq, Repr

/-- The test `document.activeElement === x` for `x` one of `first`, `last`, which are
`undefined` when the modal has no button: `null === undefined` is false. -/
def activeIs (s : State) (x : Option Element) : Bool :=
  match x with
  | some e => s.activeElement == some e
  | none => false

/-- The closure `trap` that `openSuccessModal` creates over the buttons of the modal. The
result is the state and whether `e.preventDefault()` ran. -/
def trap (focusable : List Element) (e : KeyEvent) (s : State) : State × Bool :=
  let first := focusable.head?
  let last := focusable.getLast?
  if e.key ≠ "Tab" then (s, false)
  else if e.shiftKey && activeIs s first then
    (match last with
      | some l => focus l s
      | none => s, true)
  else if !e.shiftKey && activeIs s last then
    (match first with
      | some f => focus f s
      | none => s, true)
  else (s, false)

/-- A `keydown` event dispatched on the modal: every attached trap runs, in the order of
attachment; the default action is suppressed when one of them prevented it. -/
def modalKeydown (e : KeyEvent) (s : State) : State × Bool :=
  match s.successModal with
  | none => (s, false)
  | some modal =>
    modal.keydownTraps.foldl
      (fun acc _ => ((trap modal.buttons e acc.1).1, acc.2 || (trap modal.buttons e acc.1).2))
      (s, false)

/-- A call of one of the two modal methods. -/
inductive ModalCall where
  | openSuccessModal
  | closeSuccessModal
deriving DecidableEq, Repr

/-- The effect of a call of a modal method. -/
def ModalCall.apply (s : State) : ModalCall → State
  | .openSuccessModal => FormValidator.openSuccessModal s
  | .closeSuccessModal => FormValidator.closeSuccessModal s

/-- The state after a sequence of calls of the modal methods. -/
def runModal (s : State) (calls : List ModalCall) : State :=
  calls.foldl ModalCall.apply s

/-- Number of key-trap listeners attached to the modal. -/
def attachedTraps (s : State) : Nat :=
  match s.successModal with
  | none => 0
  | some modal => modal.keydownTraps.length

/-! ## Construction and events (lines 5-99) -/

/-- The constructor followed by `init()`: the object's fields are initialised on the page
as loaded (no listener of this object attached yet) and `updateSubmitButton()` runs. -/
def construct (page : State) : State :=
  updateSubmitButton
    { page with
      lastFocusedElement := none
      validationState := { email := false, password := false, confirmPassword := false }
      trapHandler := none
      trapsCreated := 0
      pendingCompletions := 0
      successModal := page.successModal.map fun m => { m with keydownTraps := [] } }

/-- One run of a listener attached by `setupEventListeners`, or of the completion callback.
A user action that triggers several listeners is the sequence of their events. -/
inductive Event where
  /-- The user edits the email field: the value changes and the `input` listener runs. -/
  | emailInput (value : JSString)
  /-- The user edits the password field. -/
  | passwordInput (value : JSString)
  /-- The user edits the confirm-password field. -/
  | confirmPasswordInput (value : JSString)
  | emailBlur
  | passwordBlur
  | confirmPasswordBlur
  | passwordFocus
  /-- The click listener of a visibility toggle. -/
  | toggleClick (fieldType : String)
  /-- The document's click listener, for a click outside the password input and the
  checklist. -/
  | outsideClick
  /-- The form's `keydown` listener, for the key Enter. -/
  | enterKey
  /-- The form's `submit` listener. -/
  | submit
  /-- A scheduled completion callback comes due. -/
  | timer
  /-- The click listeners of the modal: its OK button, its close button, its overlay. -/
  | modalDismiss
  /-- The document's `keydown` listener, for the key Escape. -/
  | escapeKey

/-- The listener that runs for an event. -/
def step (s : State) : Event → State
  | .emailInput value => validateEmail { s with emailValue := value }
  | .passwordInput value => validatePassword { s with passwordValue := value }
  | .confirmPasswordInput value => validateConfirmPassword { s with confirmPasswordValue := value }
  | .emailBlur => validateEmail s
  | .passwordBlur => validatePassword s
  | .confirmPasswordBlur => validateConfirmPassword s
  | .passwordFocus => showPasswordRules s
  | .toggleClick fieldType => togglePasswordVisibility fieldType s
  | .outsideClick => hidePasswordRules s
  | .enterKey => if !isFormValid s then announceErrors s else s
  | .submit => handleSubmit s
  | .timer => if s.pendingCompletions > 0 then completion s else s
  | .modalDismiss => closeSuccessModal s
  | .escapeKey => if isModalOpen s then closeSuccessModal s else s

/-- The state after a sequence of events. -/
def run (s : State) (events : List Event) : State :=
  events.foldl step s

/-! ## Sample pages -/

/-- An unmarked field group with its error element inside it. -/
def freshGroup : FieldGroup :=
  { valid := false, error := false, errorText := "", errorShown := false, errorInGroup := true }

/-- An unmarked rule element. -/
def freshRule : RuleView :=
  { valid := false, invalid := false, icon := "❌" }

/-- A page as loaded, with every element the script looks up. -/
def samplePage : State where
  emailValue := []
  passwordValue := []
  confirmPasswordValue := []
  passwordType := .password
  confirmPasswordType := .password
  emailGroup := freshGroup
  passwordGroup := freshGroup
  confirmPasswordGroup := freshGroup
  rules := ⟨freshRule, freshRule, freshRule, freshRule, freshRule⟩
  rulesShown := false
  successEl := some { text := "", shown := false }
  submitBtn := { disabled := false, ariaLabel := "", text := "Register" }
  passwordToggle := { text := "👁️", ariaLabel := "Show password" }
  confirmPasswordToggle := { text := "👁️", ariaLabel := "Show password" }
  liveRegion := none
  successModal :=
    some { shown := false, ariaHidden := some "true",
           buttons := [.successModalClose, .successModalOk], keydownTraps := [] }
  successModalOk := true
  activeElement := some .body
  lastFocusedElement := none
  trapHandler := none
  trapsCreated := 0
  validationState := { email := false, password := false, confirmPassword := false }
  pendingCompletions := 0

/-- Filling the three fields of the sample page with valid values. -/
def validEntries : List Event :=
  [.emailInput (utf16 "user@example.com"), .passwordInput (utf16 "Abcdef1!"),
    .confirmPasswordInput (utf16 "Abcdef1!")]

/-! ## The specification's vocabulary -/

/-- Declarative meaning of an expression: the strings it matches exactly. -/
def Re.lang : Re → JSString → Prop
  | .cls items, w => ∃ c, w = [c] ∧ classHas items c = true
  | .dot, w => ∃ c, w = [c] ∧ isLineTerminator c = false
  | .seq a b, w => ∃ u v, w = u ++ v ∧ a.lang u ∧ b.lang v
  | .rep a lo hi, w =>
    ∃ ws : List JSString, w = ws.flatten ∧ (∀ x ∈ ws, a.lang x) ∧ lo ≤ ws.length ∧
      ∀ h, hi = some h → ws.length ≤ h

/-- ASCII letter. -/
def isLetter (c : Nat) : Bool :=
  ('a'.toNat ≤ c && c ≤ 'z'.toNat) || ('A'.toNat ≤ c && c ≤ 'Z'.toNat)

/-- ASCII digit. -/
def isDigit (c : Nat) : Bool :=
  '0'.toNat ≤ c && c ≤ '9'.toNat

/-- Characters of a local part: letters, digits and the listed punctuation. -/
def isLocalPartChar (c : Nat) : Bool :=
  isLetter c || isDigit c || (utf16 ".!#$%&'*+/=?^_`\x7b|\x7d~-").contains c

/-- A domain label in the words of the specification: 1 to 63 characters, each a letter, a
digit or a hyphen, neither the first nor the last a hyphen. -/
def IsLabel (l : JSString) : Prop :=
  1 ≤ l.length ∧ l.length ≤ 63 ∧
  (∀ c ∈ l, (isLetter c || isDigit c || c == '-'.toNat) = true) ∧
  l.head? ≠ some '-'.toNat ∧ l.getLast? ≠ some '-'.toNat

/-- The email grammar in the words of the specification: a non-empty local part of allowed
characters, `@`, and one or more labels separated by dots. -/
def EmailGrammar (s : JSString) : Prop :=
  ∃ (localPart : JSString) (labels : List JSString),
    s = localPart ++ '@'.toNat :: ['.'.toNat].intercalate labels ∧
    localPart ≠ [] ∧ (∀ c ∈ localPart, isLocalPartChar c = true) ∧
    labels ≠ [] ∧ ∀ l ∈ labels, IsLabel l

/-- The five password rules in the words of the specification. -/
def ruleHolds : RuleId → JSString → Bool
  | .length, p => decide (8 ≤ p.length)
  | .uppercase, p => p.any fun c => 'A'.toNat ≤ c && c ≤ 'Z'.toNat
  | .lowercase, p => p.any fun c => 'a'.toNat ≤ c && c ≤ 'z'.toNat
  | .digit, p => p.any fun c => '0'.toNat ≤ c && c ≤ '9'.toNat
  | .special, p => p.any fun c => (utf16 "!@#$%^&*(),.?\":\x7b\x7d|<>").contains c

/-- How the loop of `validatePassword` marks a rule element. -/
def ruleMark (ok : Bool) : RuleView :=
  if ok then { valid := true, invalid := false, icon := "✅" }
  else { valid := false, invalid := true, icon := "❌" }

/-- What the confirm-password invariant reads: the recorded validity of the confirmation
and the two values it compares. -/
def confirmView (s : State) : Bool × JSString × JSString :=
  (s.validationState.confirmPassword, s.confirmPasswordValue, s.passwordValue)

/-- The invariant of the confirmation: recorded valid only when non-empty and equal to the
password. -/
def ConfirmConsistent (s : State) : Prop :=
  s.validationState.confirmPassword = true →
    s.confirmPasswordValue ≠ [] ∧ s.confirmPasswordValue = s.passwordValue

/-- Whether the satisfied message is displayed: `#password-success` exists and has the class
`show`. -/
def satisfiedShown (s : State) : Bool :=
  match s.successEl with
  | some e => e.shown
  | none => false

/-- What `validatePassword` presents: the password group with its error element, the
visibility of the checklist and the satisfied message. -/
def passwordView (s : State) : FieldGroup × Bool × Option SuccessView :=
  (s.passwordGroup, s.rulesShown, s.successEl)

/-- Agreement of a field group with the recorded validity of its field: never both markers,
`valid` exactly when recorded valid, `error` exactly when an error message is shown. -/
def MarkersAgree (g : FieldGroup) (entry : Bool) : Prop :=
  ¬ (g.valid = true ∧ g.error = true) ∧ g.valid = entry ∧
  (g.error = true ↔ g.errorShown = true)

/-! ## The matcher computes the declarative meaning -/

theorem repeatN_mem (f : JSString → List JSString) (L : JSString → Prop)
    (hf : ∀ s r, r ∈ f s ↔ ∃ w, s = w ++ r ∧ L w) (n : Nat) :
    ∀ s r, r ∈ repeatN f n s ↔
      ∃ ws : List JSString, ws.length = n ∧ (∀ x ∈ ws, L x) ∧ s = ws.flatten ++ r := by
  induction n with
  | zero =>
    intro s r
    constructor
    · intro h
      refine ⟨[], rfl, by simp, ?_⟩
      simpa [repeatN, eq_comm] using h
    · rintro ⟨ws, hl, -, hs⟩
      have : ws = [] := List.length_eq_zero.mp hl
      subst this
      simp [repeatN, hs]
  | succ n ih =>
    intro s r
    simp only [repeatN, List.mem_flatMap]
    constructor
    · rintro ⟨m, hm, hr⟩
      obtain ⟨w, hs, hw⟩ := (hf s m).mp hm
      obtain ⟨ws, hl, hall, hm2⟩ := (ih m r).mp hr
      refine ⟨w :: ws, by simp [hl], ?_, ?_⟩
      · intro x hx
        rcases List.mem_cons.mp hx with rfl | hx
        · exact hw
        · exact hall x hx
      · simp [hs, hm2]
    · rintro ⟨ws, hl, hall, hs⟩
      match ws, hl, hall, hs with
      | [], hl, _, _ => simp at hl
      | w :: ws, hl, hall, hs =>
        refine ⟨ws.flatten ++ r, (hf _ _).mpr ⟨w, by simp [hs], hall w (by simp)⟩, ?_⟩
        exact (ih _ _).mpr ⟨ws, by simpa using hl, fun x hx => hall x (by simp [hx]), rfl⟩

theorem repeatUpTo_mem (f : JSString → List JSString) (L : JSString → Prop)
    (hf : ∀ s r, r ∈ f s ↔ ∃ w, s = w ++ r ∧ L w) (n : Nat) :
    ∀ s r, r ∈ repeatUpTo f n s ↔
      ∃ ws : List JSString, ws.length ≤ n ∧ (∀ x ∈ ws, L x) ∧ s = ws.flatten ++ r := by
  induction n with
  | zero =>
    intro s r
    constructor
    · intro h
      refine ⟨[], by simp, by simp, ?_⟩
      simpa [repeatUpTo, eq_comm] using h
    · rintro ⟨ws, hl, -, hs⟩
      have : ws = [] := List.length_eq_zero.mp (Nat.le_zero.mp hl)
      subst this
      simp [repeatUpTo, hs]
  | succ n ih =>
    intro s r
    simp only [repeatUpTo, List.mem_cons, List.mem_flatMap]
    constructor
    · rintro (rfl | ⟨m, hm, hr⟩)
      · exact ⟨[], by simp, by simp, by simp⟩
      · obtain ⟨w, hs, hw⟩ := (hf s m).mp hm
        obtain ⟨ws, hl, hall, hm2⟩ := (ih m r).mp hr
        refine ⟨w :: ws, by simp [hl], ?_, ?_⟩
        · intro x hx
          rcases List.mem_cons.mp hx with rfl | hx
          · exact hw
          · exact hall x hx
        · simp [hs, hm2]
    · rintro ⟨ws, hl, hall, hs⟩
      match ws, hl, hall, hs with
      | [], _, _, hs => left; simpa using hs.symm
      | w :: ws, hl, hall, hs =>
        right
        refine ⟨ws.flatten ++ r, (hf _ _).mpr ⟨w, by simp [hs], hall w (by simp)⟩, ?_⟩
        exact (ih _ _).mpr
          ⟨ws, by simpa using hl, fun x hx => hall x (by simp [hx]), rfl⟩

theorem length_le_flatten_of_ne_nil (ws : List JSString) (h : ∀ x ∈ ws, x ≠ []) :
    ws.length ≤ ws.flatten.length := by
  induction ws with
  | nil => simp
  | cons w ws ih =>
    have hw : w ≠ [] := h w (by simp)
    have := ih fun x hx => h x (by simp [hx])
    have hpos : 0 < w.length := List.length_pos.mpr hw
    simp only [List.flatten_cons, List.length_append, List.length_cons]
    omega

theorem matchRe_mem (e : Re) :
    ∀ s r, r ∈ matchRe e s ↔ ∃ w, s = w ++ r ∧ e.lang w := by
  induction e with
  | cls items =>
    intro s r
    cases s with
    | nil => simp [matchRe, Re.lang]
    | cons c cs =>
      by_cases hc : classHas items c = true
      · simp only [matchRe, hc, if_true, List.mem_singleton, Re.lang]
        constructor
        · rintro rfl
          exact ⟨[c], rfl, c, rfl, hc⟩
        · rintro ⟨w, hw, d, rfl, -⟩
          simp at hw
          exact hw.2.symm
      · simp only [matchRe, hc, Re.lang]
        constructor
        · intro h; simp at h
        · rintro ⟨w, hw, d, rfl, hd⟩
          simp at hw
          rw [← hw.1] at hd
          exact absurd hd hc
  | dot =>
    intro s r
    cases s with
    | nil => simp [matchRe, Re.lang]
    | cons c cs =>
      by_cases hc : isLineTerminator c = true
      · simp only [matchRe, hc, if_true, Re.lang]
        constructor
        · intro h; simp at h
        · rintro ⟨w, hw, d, rfl, hd⟩
          simp at hw
          rw [← hw.1, hc] at hd
          simp at hd
      · simp only [matchRe, hc, Re.lang]
        constructor
        · intro h
          simp at h
          subst h
          exact ⟨[c], rfl, c, rfl, by simpa using hc⟩
        · rintro ⟨w, hw, d, rfl, -⟩
          simp at hw
          simp [hw.2]
  | seq a b iha ihb =>
    intro s r
    simp only [matchRe, List.mem_flatMap, Re.lang]
    constructor
    · rintro ⟨m, hm, hr⟩
      obtain ⟨u, hs, hu⟩ := (iha s m).mp hm
      obtain ⟨v, hm2, hv⟩ := (ihb m r).mp hr
      exact ⟨u ++ v, by simp [hs, hm2], u, v, rfl, hu, hv⟩
    · rintro ⟨w, hs, u, v, rfl, hu, hv⟩
      exact ⟨v ++ r, (iha _ _).mpr ⟨u, by simp [hs], hu⟩, (ihb _ _).mpr ⟨v, rfl, hv⟩⟩
  | rep a lo hi ih =>
    intro s r
    cases hi with
    | some hi =>
      simp only [matchRe, Re.lang]
      by_cases hlt : hi < lo
      · simp only [hlt, if_true]
        constructor
        · intro h; simp at h
        · rintro ⟨w, -, ws, -, -, h1, h2⟩
          have := h2 hi rfl
          omega
      · simp only [hlt, if_false, List.mem_flatMap]
        constructor
        · rintro ⟨m, hm, hr⟩
          obtain ⟨ws1, hl1, hall1, hs⟩ := (repeatN_mem _ _ ih lo s m).mp hm
          obtain ⟨ws2, hl2, hall2, hm2⟩ := (repeatUpTo_mem _ _ ih (hi - lo) m r).mp hr
          refine ⟨(ws1 ++ ws2).flatten, by simp [hs, hm2], ws1 ++ ws2, rfl, ?_, ?_, ?_⟩
          · intro x hx
            rcases List.mem_append.mp hx with hx | hx
            · exact hall1 x hx
            · exact hall2 x hx
          · simp [hl1]
          · intro h hh
            cases hh
            simp only [List.length_append]
            omega
        · rintro ⟨w, hs, ws, rfl, hall, h1, h2⟩
          have h2 := h2 hi rfl
          refine ⟨(ws.drop lo).flatten ++ r, ?_, ?_⟩
          · refine (repeatN_mem _ _ ih lo _ _).mpr
              ⟨ws.take lo, by simp [h1], fun x hx => hall x (List.mem_of_mem_take hx), ?_⟩
            rw [hs, ← List.append_assoc, ← List.flatten_append, List.take_append_drop]
          · refine (repeatUpTo_mem _ _ ih _ _ _).mpr
              ⟨ws.drop lo, by simp; omega, fun x hx => hall x (List.mem_of_mem_drop hx), rfl⟩
    | none =>
      simp only [matchRe, Re.lang, List.mem_flatMap]
      constructor
      · rintro ⟨m, hm, hr⟩
        obtain ⟨ws1, hl1, hall1, hs⟩ := (repeatN_mem _ _ ih lo s m).mp hm
        obtain ⟨ws2, -, hall2, hm2⟩ := (repeatUpTo_mem _ _ ih _ m r).mp hr
        refine ⟨(ws1 ++ ws2).flatten, by simp [hs, hm2], ws1 ++ ws2, rfl, ?_, ?_, ?_⟩
        · intro x hx
          rcases List.mem_append.mp hx with hx | hx
          · exact hall1 x hx
          · exact hall2 x hx
        · simp [hl1]
        · intro h hh
          cases hh
      · rintro ⟨w, hs, ws, rfl, hall, h1, -⟩
        refine ⟨(ws.drop lo).flatten ++ r, ?_, ?_⟩
        · refine (repeatN_mem _ _ ih lo _ _).mpr
            ⟨ws.take lo, by simp [h1], fun x hx => hall x (List.mem_of_mem_take hx), ?_⟩
          rw [hs, ← List.append_assoc, ← List.flatten_append, List.take_append_drop]
        · refine (repeatUpTo_mem _ _ ih _ _ _).mpr
            ⟨(ws.drop lo).filter (fun x => x ≠ []), ?_, ?_, ?_⟩
          · have h := length_le_flatten_of_ne_nil ((ws.drop lo).filter (fun x => x ≠ []))
              (fun x hx => by simpa using (List.mem_filter.mp hx).2)
            rw [List.flatten_filter_ne_nil] at h
            simp only [List.length_append]
            omega
          · intro x hx
            exact hall x (List.mem_of_mem_drop (List.mem_filter.mp hx).1)
          · rw [List.flatten_filter_ne_nil]

theorem utf16_local : utf16 ".!#$%&'*+/=?^_`\x7b|\x7d~-" = [46, 33, 35, 36, 37, 38, 39, 42, 43, 47, 61, 63, 94, 95, 96, 123, 124, 125, 126, 45] := by decide

theorem classHas_alnum (c : Nat) : classHas alnumClass c = (isLetter c || isDigit c) := by
  simp [classHas, alnumClass, ClassItem.has, isLetter, isDigit, Bool.or_assoc]

theorem classHas_local (c : Nat) : classHas localClass c = isLocalPartChar c := by
  rw [Bool.eq_iff_iff]
  simp [classHas, localClass, ClassItem.has, isLocalPartChar, isLetter, isDigit, utf16_local, or_assoc]

theorem classHas_alnumHyphen (c : Nat) :
    classHas alnumHyphenClass c = (isLetter c || isDigit c || c == '-'.toNat) := by
  simp [classHas, alnumHyphenClass, ClassItem.has, isLetter, isDigit, Bool.or_assoc]

theorem classHas_ch (d : Char) (c : Nat) : classHas [.ch d] c = (c == d.toNat) := by
  simp [classHas, ClassItem.has]

theorem flatten_map_single (w : JSString) : (w.map fun c => [c]).flatten = w := by
  induction w with
  | nil => rfl
  | cons c w ih => simp [ih]

theorem rep_cls_lang (items : List ClassItem) (lo : Nat) (hi : Option Nat) (w : JSString) :
    (Re.rep (.cls items) lo hi).lang w ↔
      lo ≤ w.length ∧ (∀ h, hi = some h → w.length ≤ h) ∧ ∀ c ∈ w, classHas items c = true := by
  simp only [Re.lang]
  constructor
  · rintro ⟨ws, rfl, hall, hlo, hhi⟩
    have key : ws.flatten.length = ws.length ∧ ∀ c ∈ ws.flatten, classHas items c = true := by
      clear hlo hhi
      induction ws with
      | nil => simp
      | cons x ws ih =>
        obtain ⟨d, rfl, hd⟩ := hall x (by simp)
        obtain ⟨h1, h2⟩ := ih fun y hy => hall y (by simp [hy])
        refine ⟨by simp [h1], ?_⟩
        intro c hc
        simp only [List.flatten_cons, List.singleton_append, List.mem_cons] at hc
        rcases hc with rfl | hc
        · exact hd
        · exact h2 c hc
    rw [key.1]
    exact ⟨hlo, hhi, key.2⟩
  · rintro ⟨hlo, hhi, hall⟩
    refine ⟨w.map fun c => [c], (flatten_map_single w).symm, ?_, by simpa using hlo,
      by simpa using hhi⟩
    intro x hx
    obtain ⟨c, hc, rfl⟩ := List.mem_map.mp hx
    exact ⟨c, rfl, hall c hc⟩

theorem alnum_ne_hyphen (c : Nat) (h : (isLetter c || isDigit c) = true) : c ≠ '-'.toNat := by
  intro hc
  subst hc
  simp [isLetter, isDigit] at h

theorem labelRe_lang (w : JSString) : labelRe.lang w ↔ IsLabel w := by
  simp only [labelRe, Re.lang, IsLabel, classHas_alnum]
  constructor
  · rintro ⟨u, v, rfl, ⟨c, rfl, hc⟩, ws, rfl, hall, -, hhi⟩
    have hlen := hhi 1 rfl
    match ws, hall, hlen with
    | [], _, _ =>
      refine ⟨by simp, by simp, ?_, ?_, ?_⟩
      · intro d hd
        simp at hd
        subst hd
        simp [hc]
      · simpa using alnum_ne_hyphen c hc
      · simpa using alnum_ne_hyphen c hc
    | [x], hall, _ =>
      obtain ⟨m, e, rfl, hm, d, rfl, hd⟩ := hall x (by simp)
      obtain ⟨-, hmhi, hmall⟩ := (rep_cls_lang _ _ _ _).mp hm
      have hm61 := hmhi 61 rfl
      refine ⟨by simp, by simp; omega, ?_, ?_, ?_⟩
      · intro y hy
        simp only [List.flatten_cons, List.flatten_nil, List.append_nil, List.singleton_append,
          List.mem_cons, List.mem_append, List.not_mem_nil, or_false] at hy
        rcases hy with rfl | hy | rfl
        · simp [hc]
        · simpa [classHas_alnumHyphen] using hmall y hy
        · simp [hd]
      · simpa using alnum_ne_hyphen c hc
      · have : [c] ++ [m ++ [d]].flatten = (c :: m) ++ [d] := by simp
        rw [this, List.getLast?_append]
        simpa using alnum_ne_hyphen d hd
    | _ :: _ :: _, _, hlen => simp at hlen
  · rintro ⟨h1, h63, hall, hhead, hlast⟩
    match w, h1, h63, hall, hhead, hlast with
    | [], h1, _, _, _, _ => simp at h1
    | c :: rest, _, h63, hall, hhead, hlast =>
      have hc : (isLetter c || isDigit c) = true := by
        have h := hall c (by simp)
        have hne : c ≠ '-'.toNat := by simpa using hhead
        rw [Bool.or_eq_true] at h
        rcases h with h | h
        · exact h
        · exact absurd (beq_iff_eq.mp h) hne
      rcases List.eq_nil_or_concat rest with rfl | ⟨m, d, hrest⟩
      · exact ⟨[c], [], rfl, ⟨c, rfl, hc⟩, [], rfl, by simp, by simp, by simp⟩
      · rw [List.concat_eq_append] at hrest
        subst hrest
        have hd : (isLetter d || isDigit d) = true := by
          have h := hall d (by simp)
          have hne : d ≠ '-'.toNat := by
            have : (c :: (m ++ [d])) = (c :: m) ++ [d] := by simp
            rw [this, List.getLast?_append] at hlast
            simpa using hlast
          rw [Bool.or_eq_true] at h
          rcases h with h | h
          · exact h
          · exact absurd (beq_iff_eq.mp h) hne
        refine ⟨[c], m ++ [d], rfl, ⟨c, rfl, hc⟩, [m ++ [d]], by simp, ?_, by simp, by simp⟩
        intro x hx
        simp only [List.mem_singleton] at hx
        subst hx
        refine ⟨m, [d], rfl, ?_, d, rfl, hd⟩
        refine (rep_cls_lang _ _ _ _).mpr ⟨by simp, ?_, ?_⟩
        · intro h hh
          cases hh
          simp at h63
          omega
        · intro y hy
          rw [classHas_alnumHyphen]
          exact hall y (by simp [hy])

theorem intercalate_cons (sep : Nat) (l : JSString) (ls : List JSString) :
    [sep].intercalate (l :: ls) = l ++ (ls.map fun x => sep :: x).flatten := by
  induction ls generalizing l with
  | nil => simp [List.intercalate, List.intersperse]
  | cons x ls ih =>
    have h := ih x
    simp only [List.intercalate] at h ⊢
    simp [List.intersperse, h]

theorem dotLabels_lang (w : JSString) :
    (Re.rep (.seq (.cls [.ch '.']) labelRe) 0 none).lang w ↔
      ∃ ls : List JSString, (∀ l ∈ ls, IsLabel l) ∧ w = (ls.map fun x => '.'.toNat :: x).flatten := by
  simp only [Re.lang, classHas_ch]
  constructor
  · rintro ⟨ws, rfl, hall, -, -⟩
    induction ws with
    | nil => exact ⟨[], by simp, rfl⟩
    | cons x ws ih =>
      obtain ⟨u, v, rfl, ⟨c, rfl, hc⟩, hv⟩ := hall x (by simp)
      obtain ⟨ls, hls, hw⟩ := ih fun y hy => hall y (by simp [hy])
      have hc : c = '.'.toNat := beq_iff_eq.mp hc
      subst hc
      refine ⟨v :: ls, ?_, by simp [hw]⟩
      intro l hl
      rcases List.mem_cons.mp hl with rfl | hl
      · exact (labelRe_lang _).mp hv
      · exact hls l hl
  · rintro ⟨ls, hls, rfl⟩
    refine ⟨ls.map fun x => '.'.toNat :: x, rfl, ?_, by simp, by simp⟩
    intro x hx
    obtain ⟨l, hl, rfl⟩ := List.mem_map.mp hx
    exact ⟨['.'.toNat], l, rfl, ⟨_, rfl, by simp⟩, (labelRe_lang _).mpr (hls l hl)⟩

theorem emailRegex_lang (s : JSString) : emailRegex.body.lang s ↔ EmailGrammar s := by
  simp only [emailRegex, Re.lang.eq_3, EmailGrammar]
  constructor
  · rintro ⟨u, v, rfl, ⟨u1, l0, rfl, ⟨lp, a, rfl, hlp, hat⟩, hl0⟩, hv⟩
    obtain ⟨hlen, -, hall⟩ := (rep_cls_lang _ _ _ _).mp hlp
    obtain ⟨ls, hls, rfl⟩ := (dotLabels_lang _).mp hv
    obtain ⟨c, rfl, hc⟩ := hat
    rw [classHas_ch] at hc
    have hc : c = '@'.toNat := beq_iff_eq.mp hc
    subst hc
    refine ⟨lp, l0 :: ls, ?_, ?_, ?_, by simp, ?_⟩
    · rw [intercalate_cons]; simp
    · intro h; subst h; simp at hlen
    · intro c hc; rw [← classHas_local]; exact hall c hc
    · intro l hl
      rcases List.mem_cons.mp hl with rfl | hl
      · exact (labelRe_lang _).mp hl0
      · exact hls l hl
  · rintro ⟨lp, labels, rfl, hne, hall, hlabels, hlab⟩
    match labels, hlabels, hlab with
    | [], h, _ => exact absurd rfl h
    | l0 :: ls, _, hlab =>
      refine ⟨lp ++ ['@'.toNat] ++ l0, (ls.map fun x => '.'.toNat :: x).flatten, ?_,
        ⟨lp ++ ['@'.toNat], l0, rfl, ⟨lp, ['@'.toNat], rfl, ?_, ⟨_, rfl, by simp [classHas_ch]⟩⟩,
          (labelRe_lang _).mpr (hlab l0 (by simp))⟩, ?_⟩
      · rw [intercalate_cons]; simp
      · refine (rep_cls_lang _ _ _ _).mpr ⟨?_, by simp, ?_⟩
        · exact List.length_pos.mpr hne
        · intro c hc; rw [classHas_local]; exact hall c hc
      · exact (dotLabels_lang _).mpr ⟨ls, fun l hl => hlab l (by simp [hl]), rfl⟩

theorem test_anchored (p : Pattern) (h1 : p.anchorStart = true) (h2 : p.anchorEnd = true)
    (s : JSString) : p.test s = true ↔ p.body.lang s := by
  simp only [Pattern.test, h1, if_true, Pattern.matchesAt, h2, List.any_eq_true]
  constructor
  · rintro ⟨r, hr, hempty⟩
    obtain ⟨w, hs, hw⟩ := (matchRe_mem _ _ _).mp hr
    have : r = [] := by simpa using hempty
    subst this
    simpa [hs] using hw
  · intro h
    exact ⟨[], (matchRe_mem _ _ _).mpr ⟨s, by simp, h⟩, by simp⟩

theorem test_class (items : List ClassItem) (s : JSString) :
    (Pattern.mk false (.cls items) false).test s = s.any (classHas items) := by
  induction s with
  | nil => simp [Pattern.test, Pattern.matchesAt, matchRe]
  | cons c cs ih =>
    simp only [Pattern.test, Bool.false_eq_true, if_false, List.tails, List.any_cons] at ih ⊢
    rw [ih]
    by_cases hc : classHas items c = true <;> simp [Pattern.matchesAt, matchRe, hc]

/-! ## Helper lemmas about the validators -/

theorem emailRegex_test_iff (s : JSString) : emailRegex.test s = true ↔ EmailGrammar s :=
  (test_anchored emailRegex rfl rfl s).trans (emailRegex_lang s)

theorem not_emailGrammar_nil : ¬ EmailGrammar [] := by
  rintro ⟨lp, labels, h, -⟩
  simp at h

theorem isFormValid_eq (s : State) :
    isFormValid s =
      (s.validationState.email && s.validationState.password &&
        s.validationState.confirmPassword) := by
  simp [isFormValid, Bool.and_assoc]

theorem utf16_special :
    utf16 "!@#$%^&*(),.?\":\x7b\x7d|<>" =
      [33, 64, 35, 36, 37, 94, 38, 42, 40, 41, 44, 46, 63, 34, 58, 123, 125, 124, 60, 62] := by
  decide

theorem isRuleValid_eq (rule : RuleId) (p : JSString) : isRuleValid rule p = ruleHolds rule p := by
  cases rule
  · simp [isRuleValid, passwordRules, ruleHolds]
  · simp only [isRuleValid, passwordRules, ruleHolds, test_class]
    simp only [reduceCtorEq, if_false]
    congr 1
    funext c
    simp [classHas, ClassItem.has]
  · simp only [isRuleValid, passwordRules, ruleHolds, test_class]
    simp only [reduceCtorEq, if_false]
    congr 1
    funext c
    simp [classHas, ClassItem.has]
  · simp only [isRuleValid, passwordRules, ruleHolds, test_class]
    simp only [reduceCtorEq, if_false]
    congr 1
    funext c
    simp [classHas, ClassItem.has]
  · simp only [isRuleValid, passwordRules, ruleHolds, test_class]
    simp only [reduceCtorEq, if_false]
    congr 1
    funext c
    rw [Bool.eq_iff_iff]
    simp [classHas, ClassItem.has, utf16_special]

theorem checkRule_eq (p : JSString) (acc : RuleLoop) (rule : RuleId) :
    checkRule p acc rule =
      { rules := acc.rules.set rule (ruleMark (isRuleValid rule p))
        isValid := acc.isValid && isRuleValid rule p
        failedRules := if isRuleValid rule p then acc.failedRules else acc.failedRules ++ [rule] } := by
  by_cases h : isRuleValid rule p = true
  · simp [checkRule, h, ruleMark]
  · simp only [Bool.not_eq_true] at h
    simp [checkRule, h, ruleMark]

theorem loop_isValid (p : JSString) (l : List RuleId) (acc : RuleLoop) :
    (l.foldl (checkRule p) acc).isValid = (acc.isValid && l.all fun r => isRuleValid r p) := by
  induction l generalizing acc with
  | nil => simp
  | cons r l ih => simp [List.foldl, ih, checkRule_eq, Bool.and_assoc]

theorem get_set (v : RuleViews) (r q : RuleId) (x : RuleView) :
    (v.set r x).get q = if q = r then x else v.get q := by
  cases r <;> cases q <;> simp [RuleViews.get, RuleViews.set]

theorem loop_rules (p : JSString) (l : List RuleId) (acc : RuleLoop) (q : RuleId) :
    (l.foldl (checkRule p) acc).rules.get q =
      if q ∈ l then ruleMark (isRuleValid q p) else acc.rules.get q := by
  induction l generalizing acc with
  | nil => simp
  | cons r l ih =>
    simp only [List.foldl, ih, checkRule_eq, get_set, List.mem_cons]
    by_cases h1 : q ∈ l
    · simp [h1]
    · by_cases h2 : q = r
      · simp [h2]
      · simp [h1, h2]

theorem mem_ruleOrder (q : RuleId) : q ∈ ruleOrder := by
  cases q <;> simp [ruleOrder]

theorem updateSubmitButton_validationState (s : State) :
    (updateSubmitButton s).validationState = s.validationState := rfl

theorem updateSubmitButton_rules (s : State) : (updateSubmitButton s).rules = s.rules := rfl

theorem validateConfirmPassword_password (s : State) :
    (validateConfirmPassword s).validationState.password = s.validationState.password := by
  unfold validateConfirmPassword
  simp only []
  split_ifs <;> rfl

theorem validateConfirmPassword_rules (s : State) :
    (validateConfirmPassword s).rules = s.rules := by
  unfold validateConfirmPassword
  simp only []
  split_ifs <;> rfl

theorem validatePassword_password (s : State) :
    (validatePassword s).validationState.password =
      ruleOrder.all fun r => isRuleValid r s.passwordValue := by
  have hl := loop_isValid s.passwordValue ruleOrder ⟨s.rules, true, []⟩
  simp only [Bool.true_and] at hl
  unfold validatePassword
  simp only [updateSubmitButton_validationState]
  rw [hl]
  by_cases h1 : s.passwordValue = []
  · simp only [h1, if_true]
    split_ifs
    · rw [validateConfirmPassword_password]
      simp [ruleOrder, isRuleValid, passwordRules]
    · simp [ruleOrder, isRuleValid, passwordRules]
  · by_cases h2 : (ruleOrder.all fun r => isRuleValid r s.passwordValue) = true
    · simp only [h1, if_false, h2, Bool.not_true, Bool.false_eq_true]
      split_ifs
      · rw [validateConfirmPassword_password]
      · rfl
    · simp only [Bool.not_eq_true] at h2
      simp only [h1, if_false, h2, Bool.not_false, if_true]
      split_ifs
      · rw [validateConfirmPassword_password]
      · rfl

theorem validatePassword_rules_get (s : State) (q : RuleId) :
    (validatePassword s).rules.get q = ruleMark (isRuleValid q s.passwordValue) := by
  have hl := loop_rules s.passwordValue ruleOrder ⟨s.rules, true, []⟩ q
  simp only [mem_ruleOrder, if_true] at hl
  unfold validatePassword
  simp only [updateSubmitButton_rules]
  split_ifs <;> simp only [validateConfirmPassword_rules] <;> exact hl

/-! ## Helper lemmas about the state machine -/

theorem updateSubmitButton_disabled (s : State) :
    (updateSubmitButton s).submitBtn.disabled = !isFormValid s := rfl

theorem isFormValid_updateSubmitButton (s : State) :
    isFormValid (updateSubmitButton s) = isFormValid s := rfl

theorem disabled_of_update (t u : State) (h : t = updateSubmitButton u) :
    t.submitBtn.disabled = !isFormValid t := by
  subst h
  rfl

theorem validateEmail_update (s : State) : ∃ u, validateEmail s = updateSubmitButton u := by
  unfold validateEmail
  simp only []
  split_ifs <;> exact ⟨_, rfl⟩

theorem validateConfirmPassword_update (s : State) :
    ∃ u, validateConfirmPassword s = updateSubmitButton u := by
  unfold validateConfirmPassword
  simp only []
  split_ifs <;> exact ⟨_, rfl⟩

theorem validatePassword_update (s : State) :
    ∃ u, validatePassword s = updateSubmitButton u := by
  unfold validatePassword
  exact ⟨_, rfl⟩

theorem confirmView_updateSubmitButton (s : State) :
    confirmView (updateSubmitButton s) = confirmView s := rfl

theorem confirmView_validateEmail (s : State) :
    confirmView (validateEmail s) = confirmView s := by
  unfold validateEmail
  simp only []
  split_ifs <;> rfl

theorem confirmView_validateConfirmPassword (s : State) :
    confirmView (validateConfirmPassword s) =
      (decide (s.confirmPasswordValue ≠ [] ∧ s.passwordValue = s.confirmPasswordValue),
        s.confirmPasswordValue, s.passwordValue) := by
  unfold validateConfirmPassword
  simp only []
  split_ifs with h1 h2
  · simp [confirmView, updateSubmitButton, h1]
  · simp [confirmView, updateSubmitButton, h1, h2]
  · have h3 : s.passwordValue = s.confirmPasswordValue := not_not.mp h2
    simp [confirmView, updateSubmitButton, h1, h3]

theorem confirmView_validatePassword (s : State) :
    confirmView (validatePassword s) =
      (if s.confirmPasswordValue ≠ [] then decide (s.passwordValue = s.confirmPasswordValue)
        else s.validationState.confirmPassword,
        s.confirmPasswordValue, s.passwordValue) := by
  unfold validatePassword
  simp only [confirmView_updateSubmitButton]
  by_cases hc : s.confirmPasswordValue = []
  · split_ifs <;> simp_all [confirmView]
  · split_ifs <;> simp_all [confirmView_validateConfirmPassword]

theorem confirmView_announceErrors (s : State) :
    confirmView (announceErrors s) = confirmView s := by
  unfold announceErrors
  simp only []
  split_ifs <;> rfl

theorem confirmView_handleSubmit (s : State) :
    confirmView (handleSubmit s) = confirmView s := by
  unfold handleSubmit
  split_ifs
  · exact confirmView_announceErrors s
  · rfl

theorem confirmView_togglePasswordVisibility (fieldType : String) (s : State) :
    confirmView (togglePasswordVisibility fieldType s) = confirmView s := by
  unfold togglePasswordVisibility
  split_ifs <;> split <;> rfl

theorem confirmView_closeSuccessModal (s : State) :
    confirmView (closeSuccessModal s) = confirmView s := by
  unfold closeSuccessModal
  split
  · rfl
  · simp only []
    split <;> split <;> rfl

theorem confirmView_completion (s : State) :
    confirmView (completion s) = (false, [], []) := rfl

theorem confirmConsistent_of_view (s t : State) (h : confirmView t = confirmView s)
    (hs : ConfirmConsistent s) : ConfirmConsistent t := by
  simp only [confirmView, Prod.mk.injEq] at h
  unfold ConfirmConsistent at *
  rw [h.1, h.2.1, h.2.2]
  exact hs

theorem confirmConsistent_step (s : State) (e : Event) (hs : ConfirmConsistent s) :
    ConfirmConsistent (step s e) := by
  cases e with
  | emailInput v =>
    exact confirmConsistent_of_view s _ (confirmView_validateEmail _) hs
  | passwordInput v =>
    have h := confirmView_validatePassword { s with passwordValue := v }
    simp only [confirmView, Prod.mk.injEq] at h
    unfold ConfirmConsistent at *
    simp only [step]
    rw [h.1, h.2.1, h.2.2]
    by_cases hc : s.confirmPasswordValue = []
    · simp only [hc, ne_eq, not_true_eq_false, if_false]
      intro ht
      exact absurd hc (hs ht).1
    · simp only [ne_eq, hc, not_false_eq_true, if_true, decide_eq_true_eq]
      intro ht
      exact ⟨trivial, ht.symm⟩
  | confirmPasswordInput v =>
    have h := confirmView_validateConfirmPassword { s with confirmPasswordValue := v }
    simp only [confirmView, Prod.mk.injEq] at h
    unfold ConfirmConsistent
    simp only [step]
    rw [h.1, h.2.1, h.2.2]
    simp only [decide_eq_true_eq]
    rintro ⟨h1, h2⟩
    exact ⟨h1, h2.symm⟩
  | emailBlur => exact confirmConsistent_of_view s _ (confirmView_validateEmail _) hs
  | passwordBlur =>
    have h := confirmView_validatePassword s
    simp only [confirmView, Prod.mk.injEq] at h
    unfold ConfirmConsistent at *
    simp only [step]
    rw [h.1, h.2.1, h.2.2]
    by_cases hc : s.confirmPasswordValue = []
    · simp only [hc, ne_eq, not_true_eq_false, if_false]
      intro ht
      exact absurd hc (hs ht).1
    · simp only [ne_eq, hc, not_false_eq_true, if_true, decide_eq_true_eq]
      intro ht
      exact ⟨trivial, ht.symm⟩
  | confirmPasswordBlur =>
    have h := confirmView_validateConfirmPassword s
    simp only [confirmView, Prod.mk.injEq] at h
    unfold ConfirmConsistent
    simp only [step]
    rw [h.1, h.2.1, h.2.2]
    simp only [decide_eq_true_eq]
    rintro ⟨h1, h2⟩
    exact ⟨h1, h2.symm⟩
  | passwordFocus => exact hs
  | outsideClick => exact hs
  | toggleClick f =>
    exact confirmConsistent_of_view s _ (confirmView_togglePasswordVisibility f s) hs
  | enterKey =>
    simp only [step]
    split_ifs
    · exact confirmConsistent_of_view s _ (confirmView_announceErrors s) hs
    · exact hs
  | submit => exact confirmConsistent_of_view s _ (confirmView_handleSubmit s) hs
  | timer =>
    simp only [step]
    split_ifs
    · intro h
      have := confirmView_completion s
      simp only [confirmView, Prod.mk.injEq] at this
      rw [this.1] at h
      exact absurd h (by decide)
    · exact hs
  | modalDismiss => exact confirmConsistent_of_view s _ (confirmView_closeSuccessModal s) hs
  | escapeKey =>
    simp only [step]
    split_ifs
    · exact confirmConsistent_of_view s _ (confirmView_closeSuccessModal s) hs
    · exact hs

theorem confirmConsistent_run (events : List Event) :
    ∀ s, ConfirmConsistent s → ConfirmConsistent (run s events) := by
  induction events with
  | nil => intro s hs; exact hs
  | cons e es ih =>
    intro s hs
    exact ih (step s e) (confirmConsistent_step s e hs)

theorem confirmConsistent_construct (page : State) : ConfirmConsistent (construct page) := by
  intro h
  exact absurd h (by simp [construct, updateSubmitButton])


/-! ## Helper lemmas about the presentation -/

theorem passwordView_updateSubmitButton (s : State) :
    passwordView (updateSubmitButton s) = passwordView s := rfl

theorem passwordView_validateConfirmPassword (s : State) :
    passwordView (validateConfirmPassword s) = passwordView s := by
  unfold validateConfirmPassword
  simp only []
  split_ifs <;> rfl

theorem passwordView_validatePassword (s : State) :
    passwordView (validatePassword s) =
      if s.passwordValue = [] then
        (showError (clearFieldState s.passwordGroup) "Password is required", false,
          clearSuccess s.successEl)
      else if (validatePassword s).validationState.password = false then
        (clearFieldState s.passwordGroup, true, clearSuccess s.successEl)
      else
        (showSuccess (clearFieldState s.passwordGroup), false,
          s.successEl.map fun _ => { text := "Password requirements satisfied", shown := true })
      := by
  rw [validatePassword_password]
  have hl := loop_isValid s.passwordValue ruleOrder ⟨s.rules, true, []⟩
  simp only [Bool.true_and] at hl
  unfold validatePassword
  simp only [passwordView_updateSubmitButton]
  rw [hl]
  by_cases h1 : s.passwordValue = []
  · simp only [h1, if_true]
    split_ifs
    · rw [passwordView_validateConfirmPassword]; rfl
    · rfl
  · by_cases h2 : (ruleOrder.all fun r => isRuleValid r s.passwordValue) = true
    · simp only [h1, if_false, h2, Bool.not_true, Bool.false_eq_true, Bool.true_eq_false]
      split_ifs
      · rw [passwordView_validateConfirmPassword]; rfl
      · rfl
    · simp only [Bool.not_eq_true] at h2
      simp only [h1, if_false, h2, Bool.not_false, if_true]
      split_ifs
      · rw [passwordView_validateConfirmPassword]; rfl
      · rfl

theorem satisfiedShown_clearSuccess (s t : State) (h : t.successEl = clearSuccess s.successEl) :
    satisfiedShown t = false := by
  unfold satisfiedShown
  rw [h]
  cases s.successEl <;> rfl

/-! ## Claims -/

/-- C1: for every email value S, `validateEmail` shows 'Email address is required' and
records invalid when S trimmed is empty; shows 'Please enter a valid email address' and
records invalid when S trimmed is non-empty and is not of the form local-part `@` labels;
marks the field valid and records valid otherwise. So `validationState.email` is true after
the call exactly when S trimmed matches the grammar. Letters and digits are the ASCII ones. -/
theorem validateEmail_verdict (s : State) :
    (trim s.emailValue = [] →
      (validateEmail s).validationState.email = false ∧
      (validateEmail s).emailGroup.error = true ∧
      (validateEmail s).emailGroup.valid = false ∧
      (validateEmail s).emailGroup.errorShown = true ∧
      (validateEmail s).emailGroup.errorText = "Email address is required") ∧
    (trim s.emailValue ≠ [] → ¬ EmailGrammar (trim s.emailValue) →
      (validateEmail s).validationState.email = false ∧
      (validateEmail s).emailGroup.error = true ∧
      (validateEmail s).emailGroup.valid = false ∧
      (validateEmail s).emailGroup.errorShown = true ∧
      (validateEmail s).emailGroup.errorText = "Please enter a valid email address") ∧
    (trim s.emailValue ≠ [] → EmailGrammar (trim s.emailValue) →
      (validateEmail s).validationState.email = true ∧
      (validateEmail s).emailGroup.valid = true ∧
      (validateEmail s).emailGroup.error = false) ∧
    ((validateEmail s).validationState.email = true ↔ EmailGrammar (trim s.emailValue)) := by
  by_cases h1 : trim s.emailValue = []
  · have hg : ¬ EmailGrammar (trim s.emailValue) := by
      rw [h1]; exact not_emailGrammar_nil
    simp [validateEmail, h1, updateSubmitButton, showError, not_emailGrammar_nil]
  · by_cases h2 : emailRegex.test (trim s.emailValue) = true
    · have hg := (emailRegex_test_iff _).mp h2
      simp [validateEmail, h1, h2, hg, updateSubmitButton, showSuccess, clearFieldState]
    · have hg : ¬ EmailGrammar (trim s.emailValue) := fun h => h2 ((emailRegex_test_iff _).mpr h)
      simp [validateEmail, h1, h2, hg, updateSubmitButton, showError]

/-- Witness for C1 (Scenario B): 'not-an-email' typed into the sample page is rejected with
the format message. -/
theorem validateEmail_verdict_witness :
    (validateEmail { samplePage with emailValue := utf16 "not-an-email" }).validationState.email
        = false ∧
    (validateEmail { samplePage with emailValue := utf16 "not-an-email" }).emailGroup.errorText
        = "Please enter a valid email address" :=
  have h := (validateEmail_verdict { samplePage with emailValue := utf16 "not-an-email" }).2.1
    (by decide) (fun g => absurd ((emailRegex_test_iff _).mpr g) (by decide))
  ⟨h.1, h.2.2.2.2⟩

/-- C2: for every password value P, `validationState.password` is true after
`validatePassword` exactly when P has at least 8 code units and contains an uppercase
letter A-Z, a lowercase letter a-z, a digit, and a character of the fixed special set. -/
theorem validatePassword_valid_iff (s : State) :
    (validatePassword s).validationState.password = true ↔
      8 ≤ s.passwordValue.length ∧
      (∃ c ∈ s.passwordValue, 'A'.toNat ≤ c ∧ c ≤ 'Z'.toNat) ∧
      (∃ c ∈ s.passwordValue, 'a'.toNat ≤ c ∧ c ≤ 'z'.toNat) ∧
      (∃ c ∈ s.passwordValue, '0'.toNat ≤ c ∧ c ≤ '9'.toNat) ∧
      (∃ c ∈ s.passwordValue, c ∈ utf16 "!@#$%^&*(),.?\":\x7b\x7d|<>") := by
  rw [validatePassword_password]
  simp [ruleOrder, isRuleValid_eq, ruleHolds]

/-- C3: for all password and confirm values P and C, `validateConfirmPassword` shows
'Please confirm your password' and records invalid when C is the empty string; shows
'Passwords do not match' and records invalid when C is non-empty and differs from P;
marks the field valid and records valid otherwise. So `validationState.confirmPassword` is
true after the call exactly when C is non-empty and equal to P, and false when both are
empty. -/
theorem validateConfirmPassword_verdict (s : State) :
    (s.confirmPasswordValue = [] →
      (validateConfirmPassword s).validationState.confirmPassword = false ∧
      (validateConfirmPassword s).confirmPasswordGroup.error = true ∧
      (validateConfirmPassword s).confirmPasswordGroup.valid = false ∧
      (validateConfirmPassword s).confirmPasswordGroup.errorShown = true ∧
      (validateConfirmPassword s).confirmPasswordGroup.errorText
        = "Please confirm your password") ∧
    (s.confirmPasswordValue ≠ [] → s.confirmPasswordValue ≠ s.passwordValue →
      (validateConfirmPassword s).validationState.confirmPassword = false ∧
      (validateConfirmPassword s).confirmPasswordGroup.error = true ∧
      (validateConfirmPassword s).confirmPasswordGroup.valid = false ∧
      (validateConfirmPassword s).confirmPasswordGroup.errorShown = true ∧
      (validateConfirmPassword s).confirmPasswordGroup.errorText = "Passwords do not match") ∧
    (s.confirmPasswordValue ≠ [] → s.confirmPasswordValue = s.passwordValue →
      (validateConfirmPassword s).validationState.confirmPassword = true ∧
      (validateConfirmPassword s).confirmPasswordGroup.valid = true ∧
      (validateConfirmPassword s).confirmPasswordGroup.error = false) ∧
    ((validateConfirmPassword s).validationState.confirmPassword = true ↔
      s.confirmPasswordValue ≠ [] ∧ s.confirmPasswordValue = s.passwordValue) ∧
    (s.passwordValue = [] → s.confirmPasswordValue = [] →
      (validateConfirmPassword s).validationState.confirmPassword = false) := by
  by_cases h1 : s.confirmPasswordValue = []
  · simp [validateConfirmPassword, h1, updateSubmitButton, showError]
  · by_cases h2 : s.passwordValue = s.confirmPasswordValue
    · simp [validateConfirmPassword, h1, h2, updateSubmitButton, showSuccess, clearFieldState]
    · have h3 : ¬ s.confirmPasswordValue = s.passwordValue := fun h => h2 h.symm
      simp [validateConfirmPassword, h1, h2, h3, updateSubmitButton, showError]

/-- Witness for C3 (Scenario D): password 'Abcdef1!' with confirmation 'Abcdef1' gives the
mismatch message. -/
theorem validateConfirmPassword_verdict_witness :
    (validateConfirmPassword
      { samplePage with passwordValue := utf16 "Abcdef1!",
                        confirmPasswordValue := utf16 "Abcdef1" }).validationState.confirmPassword
        = false ∧
    (validateConfirmPassword
      { samplePage with passwordValue := utf16 "Abcdef1!",
                        confirmPasswordValue := utf16 "Abcdef1" }).confirmPasswordGroup.errorText
        = "Passwords do not match" :=
  have h := (validateConfirmPassword_verdict
    { samplePage with passwordValue := utf16 "Abcdef1!",
                      confirmPasswordValue := utf16 "Abcdef1" }).2.1 (by decide) (by decide)
  ⟨h.1, h.2.2.2.2⟩

/-- C4: `isFormValid()` is true exactly when the email, password and confirmPassword
entries of the validation state are all true; it is false right after construction, and
setting any one entry to false in any state makes it false. -/
theorem isFormValid_iff (s page : State) :
    (isFormValid s = true ↔
      s.validationState.email = true ∧ s.validationState.password = true ∧
        s.validationState.confirmPassword = true) ∧
    (construct page).validationState = ⟨false, false, false⟩ ∧
    isFormValid (construct page) = false ∧
    isFormValid { s with validationState := { s.validationState with email := false } }
      = false ∧
    isFormValid { s with validationState := { s.validationState with password := false } }
      = false ∧
    isFormValid { s with validationState := { s.validationState with confirmPassword := false } }
      = false := by
  refine ⟨?_, rfl, rfl, ?_, ?_, ?_⟩
  · simp [isFormValid_eq, and_assoc]
  · simp [isFormValid_eq]
  · simp [isFormValid_eq]
  · simp [isFormValid_eq]

/-- C7: for every password value P and every one of the five rules, `validatePassword`
marks the rule's element valid (check icon) when the rule's own predicate holds of P and
invalid (cross icon) when it does not, whatever the other rules give, also for the empty P;
for 'Abcdef1!' all five are marked valid and the password is recorded valid. -/
theorem validatePassword_marks_each_rule (s : State) (rule : RuleId) :
    (validatePassword s).rules.get rule = ruleMark (ruleHolds rule s.passwordValue) ∧
    (validatePassword { s with passwordValue := [] }).rules.get rule
      = ruleMark (ruleHolds rule []) ∧
    (validatePassword { s with passwordValue := utf16 "Abcdef1!" }).rules.get rule
      = { valid := true, invalid := false, icon := "✅" } ∧
    (validatePassword { s with passwordValue := utf16 "Abcdef1!" }).validationState.password
      = true := by
  refine ⟨?_, ?_, ?_, ?_⟩
  · rw [validatePassword_rules_get, isRuleValid_eq]
  · rw [validatePassword_rules_get, isRuleValid_eq]
  · rw [validatePassword_rules_get]
    show ruleMark (isRuleValid rule (utf16 "Abcdef1!")) = _
    cases rule <;> decide
  · rw [validatePassword_password]
    show (ruleOrder.all fun r => isRuleValid r (utf16 "Abcdef1!")) = true
    decide

/-- C5: after each of `validateEmail`, `validatePassword` and `validateConfirmPassword`,
from any prior state and field values, the submit button is disabled exactly when
`isFormValid()` is false, that is, enabled exactly when the three entries of the validation
state are true; an empty email leaves it disabled. -/
theorem validators_gate_submit (s : State) :
    ((validateEmail s).submitBtn.disabled = !isFormValid (validateEmail s)) ∧
    ((validatePassword s).submitBtn.disabled = !isFormValid (validatePassword s)) ∧
    ((validateConfirmPassword s).submitBtn.disabled
      = !isFormValid (validateConfirmPassword s)) ∧
    ((validateEmail s).submitBtn.disabled = false ↔
      (validateEmail s).validationState = ⟨true, true, true⟩) ∧
    ((validatePassword s).submitBtn.disabled = false ↔
      (validatePassword s).validationState = ⟨true, true, true⟩) ∧
    ((validateConfirmPassword s).submitBtn.disabled = false ↔
      (validateConfirmPassword s).validationState = ⟨true, true, true⟩) ∧
    (trim s.emailValue = [] → (validateEmail s).submitBtn.disabled = true) := by
  obtain ⟨u1, h1⟩ := validateEmail_update s
  obtain ⟨u2, h2⟩ := validatePassword_update s
  obtain ⟨u3, h3⟩ := validateConfirmPassword_update s
  have key : ∀ t : State, t.submitBtn.disabled = (!isFormValid t) →
      (t.submitBtn.disabled = false ↔ t.validationState = ⟨true, true, true⟩) := by
    intro t ht
    rw [ht, isFormValid_eq]
    rcases t.validationState with ⟨a, b, c⟩
    cases a <;> cases b <;> cases c <;> simp
  have d1 := disabled_of_update _ _ h1
  have d2 := disabled_of_update _ _ h2
  have d3 := disabled_of_update _ _ h3
  refine ⟨d1, d2, d3, key _ d1, key _ d2, key _ d3, ?_⟩
  intro he
  rw [d1, isFormValid_eq]
  simp [validateEmail, he, updateSubmitButton]

/-- Witness for C5 (Scenario A): validating the empty email of the sample page leaves the
submit button disabled. -/
theorem validators_gate_submit_witness :
    (validateEmail samplePage).submitBtn.disabled = true :=
  (validators_gate_submit samplePage).2.2.2.2.2.2 (by decide)

/-- C6: in every state reached from a freshly constructed validator by any sequence of
events (edits of a field followed by its validator, blurs, submissions, completions and the
other listeners), a confirmation recorded valid is non-empty and equal to the current
password; and `validatePassword` run with a non-empty confirmation records the confirmation
valid exactly when it equals the password. -/
theorem confirm_reflects_password (page : State) (events : List Event) (s : State) :
    ((run (construct page) events).validationState.confirmPassword = true →
      (run (construct page) events).confirmPasswordValue ≠ [] ∧
      (run (construct page) events).confirmPasswordValue
        = (run (construct page) events).passwordValue) ∧
    (s.confirmPasswordValue ≠ [] →
      (validatePassword s).validationState.confirmPassword
        = decide (s.confirmPasswordValue = s.passwordValue)) := by
  refine ⟨confirmConsistent_run events _ (confirmConsistent_construct page), ?_⟩
  intro hc
  have h := confirmView_validatePassword s
  simp only [confirmView, Prod.mk.injEq] at h
  rw [h.1]
  simp only [ne_eq, hc, not_false_eq_true, if_true]
  by_cases he : s.passwordValue = s.confirmPasswordValue
  · simp [he]
  · have he2 : ¬ s.confirmPasswordValue = s.passwordValue := fun h => he h.symm
    simp [he, he2]

/-- Witness for C6: after the three fields of the sample page are filled with matching
passwords the confirmation is recorded valid, and it equals the password. -/
theorem confirm_reflects_password_witness :
    (run (construct samplePage) validEntries).validationState.confirmPassword = true ∧
    (run (construct samplePage) validEntries).confirmPasswordValue
      = (run (construct samplePage) validEntries).passwordValue :=
  ⟨by decide,
    ((confirm_reflects_password samplePage validEntries samplePage).1 (by decide)).2⟩

/-- C8: `handleSubmit` disables the submit button, labels it 'Registering...' and schedules
the completion when `isFormValid()` is true, and only then; when it is false the state is
unchanged except possibly for the announcement region: validation state, field values,
submit button, modal and pending completions stay as they were. -/
theorem handleSubmit_gate (s : State) :
    (isFormValid s = true →
      (handleSubmit s).submitBtn.disabled = true ∧
      (handleSubmit s).submitBtn.text = "Registering..." ∧
      (handleSubmit s).pendingCompletions = s.pendingCompletions + 1) ∧
    (isFormValid s = false →
      handleSubmit s = { s with liveRegion := (handleSubmit s).liveRegion } ∧
      (handleSubmit s).validationState = s.validationState ∧
      (handleSubmit s).emailValue = s.emailValue ∧
      (handleSubmit s).passwordValue = s.passwordValue ∧
      (handleSubmit s).confirmPasswordValue = s.confirmPasswordValue ∧
      (handleSubmit s).submitBtn = s.submitBtn ∧
      (handleSubmit s).successModal = s.successModal ∧
      isModalOpen (handleSubmit s) = isModalOpen s ∧
      (handleSubmit s).pendingCompletions = s.pendingCompletions) ∧
    ((handleSubmit s).pendingCompletions ≠ s.pendingCompletions → isFormValid s = true) := by
  have hinv : isFormValid s = false →
      handleSubmit s = { s with liveRegion := (handleSubmit s).liveRegion } := by
    intro h
    simp only [handleSubmit, h, Bool.not_false, if_true]
    unfold announceErrors
    simp only []
    split_ifs <;> rfl
  refine ⟨?_, ?_, ?_⟩
  · intro h
    simp [handleSubmit, h]
  · intro h
    have e := hinv h
    refine ⟨e, ?_, ?_, ?_, ?_, ?_, ?_, ?_, ?_⟩ <;> (rw [e]; try rfl)
  · intro hne
    by_contra hv
    simp only [Bool.not_eq_true] at hv
    apply hne
    rw [hinv hv]

/-- Witness for C8: submitting the sample page with its three fields filled in enters the
submitting state. -/
theorem handleSubmit_gate_witness :
    (handleSubmit (run (construct samplePage) validEntries)).submitBtn.disabled = true ∧
    (handleSubmit (run (construct samplePage) validEntries)).submitBtn.text
      = "Registering..." ∧
    (handleSubmit (run (construct samplePage) validEntries)).pendingCompletions = 1 :=
  (handleSubmit_gate (run (construct samplePage) validEntries)).1 (by decide)

/-- C9: on a page that has the success modal, from any state with the three fields recorded
valid, submitting and then running the completion ends with the modal open, the three
values empty, the three entries false (so the form invalid and the submit button disabled),
the label 'Register', and no completion of this submission pending. -/
theorem submit_then_completion (s : State) (h : isFormValid s = true)
    (hm : s.successModal.isSome = true) :
    isModalOpen (completion (handleSubmit s)) = true ∧
    (completion (handleSubmit s)).emailValue = [] ∧
    (completion (handleSubmit s)).passwordValue = [] ∧
    (completion (handleSubmit s)).confirmPasswordValue = [] ∧
    (completion (handleSubmit s)).validationState = ⟨false, false, false⟩ ∧
    isFormValid (completion (handleSubmit s)) = false ∧
    (completion (handleSubmit s)).submitBtn.disabled = true ∧
    (completion (handleSubmit s)).submitBtn.text = "Register" ∧
    (completion (handleSubmit s)).pendingCompletions = s.pendingCompletions := by
  refine ⟨?_, rfl, rfl, rfl, rfl, rfl, rfl, rfl, ?_⟩
  · simp only [handleSubmit, h, Bool.not_true, Bool.false_eq_true, if_false]
    cases hs : s.successModal with
    | none =>
      rw [hs] at hm
      exact absurd hm (by decide)
    | some m =>
      simp only [completion, openSuccessModal, hs, isModalOpen, updateSubmitButton,
        hidePasswordRules, focus]
  · simp only [handleSubmit, h, Bool.not_true, Bool.false_eq_true, if_false]
    cases hs : s.successModal with
    | none => simp [completion, openSuccessModal, hs, updateSubmitButton, hidePasswordRules]
    | some m =>
      simp only [completion, openSuccessModal, hs, updateSubmitButton, hidePasswordRules, focus]
      first
        | rfl
        | simp
        | (split_ifs <;> simp)

/-- Witness for C9: the sample page, filled in, submitted and completed, shows the modal
and is back to empty fields. -/
theorem submit_then_completion_witness :
    isModalOpen (completion (handleSubmit (run (construct samplePage) validEntries))) = true ∧
    (completion (handleSubmit (run (construct samplePage) validEntries))).passwordValue
      = [] :=
  have h := submit_then_completion (run (construct samplePage) validEntries) (by decide)
    (by decide)
  ⟨h.1, h.2.2.1⟩

/-- C10, the code at a failing input: the completion callback leaves the three field groups
and the `#password-success` element as they were, so on the sample page, after valid
entries, submission and completion, the three groups still carry `valid` and the
'Password requirements satisfied' message is still shown, unlike right after
construction. -/
theorem completion_keeps_valid_markers (s : State) :
    (completion s).emailGroup = s.emailGroup ∧
    (completion s).passwordGroup = s.passwordGroup ∧
    (completion s).confirmPasswordGroup = s.confirmPasswordGroup ∧
    (completion s).successEl = s.successEl ∧
    (run (construct samplePage) (validEntries ++ [.submit, .timer])).emailGroup.valid
      = true ∧
    (run (construct samplePage) (validEntries ++ [.submit, .timer])).passwordGroup.valid
      = true ∧
    (run (construct samplePage) (validEntries ++ [.submit, .timer])).confirmPasswordGroup.valid
      = true ∧
    (run (construct samplePage) (validEntries ++ [.submit, .timer])).successEl
      = some { text := "Password requirements satisfied", shown := true } ∧
    (construct samplePage).emailGroup.valid = false ∧
    (construct samplePage).passwordGroup.valid = false ∧
    (construct samplePage).confirmPasswordGroup.valid = false ∧
    (construct samplePage).successEl = some { text := "", shown := false } := by
  refine ⟨?_, ?_, ?_, ?_, by decide, by decide, by decide, by decide, by decide, by decide,
    by decide, by decide⟩ <;>
  · unfold completion openSuccessModal
    cases s.successModal with
    | none => rfl
    | some m =>
      simp only [focus]
      split_ifs <;> rfl

/-- C11: on a page with the `#password-success` element and the password error element
inside its field group, after `validatePassword` on a password value P the presentation is
in one of three states: P empty, the required-error text is shown, the checklist is hidden
and no satisfied message is shown; P non-empty and invalid, the checklist is shown, no
error text and no satisfied message is shown; P non-empty and valid, the checklist is
hidden and the satisfied message is shown. So the checklist is shown exactly when P is
non-empty and invalid. -/
theorem validatePassword_presentation (s : State) (hsuccess : s.successEl.isSome = true)
    (hgroup : s.passwordGroup.errorInGroup = true) :
    (s.passwordValue = [] →
      (validatePassword s).passwordGroup.errorShown = true ∧
      (validatePassword s).passwordGroup.errorText = "Password is required" ∧
      (validatePassword s).rulesShown = false ∧
      satisfiedShown (validatePassword s) = false) ∧
    (s.passwordValue ≠ [] → (validatePassword s).validationState.password = false →
      (validatePassword s).rulesShown = true ∧
      (validatePassword s).passwordGroup.errorShown = false ∧
      satisfiedShown (validatePassword s) = false) ∧
    (s.passwordValue ≠ [] → (validatePassword s).validationState.password = true →
      (validatePassword s).rulesShown = false ∧
      satisfiedShown (validatePassword s) = true ∧
      (validatePassword s).successEl
        = some { text := "Password requirements satisfied", shown := true }) ∧
    ((validatePassword s).rulesShown = true ↔
      s.passwordValue ≠ [] ∧ (validatePassword s).validationState.password = false) := by
  have hv := passwordView_validatePassword s
  by_cases h1 : s.passwordValue = []
  · simp only [h1, if_true, passwordView, Prod.mk.injEq] at hv
    obtain ⟨hg, hr, hs⟩ := hv
    have hsat := satisfiedShown_clearSuccess s _ hs
    simp [h1, hg, hr, hsat, showError]
  · by_cases h2 : (validatePassword s).validationState.password = false
    · simp only [h1, if_false, h2, if_true, passwordView, Prod.mk.injEq] at hv
      obtain ⟨hg, hr, hs⟩ := hv
      have hsat := satisfiedShown_clearSuccess s _ hs
      refine ⟨fun h => absurd h h1, fun _ _ => ⟨hr, ?_, hsat⟩, ?_, ?_⟩
      · rw [hg]
        simp [clearFieldState, hgroup]
      · intro _ ht
        rw [h2] at ht
        exact absurd ht (by decide)
      · simp [hr, h1, h2]
    · have h3 : (validatePassword s).validationState.password = true := by
        simpa using h2
      simp only [h1, if_false, h3, Bool.true_eq_false, passwordView, Prod.mk.injEq] at hv
      have hr := hv.2.1
      have hs := hv.2.2
      cases hse : s.successEl with
      | none =>
        rw [hse] at hsuccess
        exact absurd hsuccess (by decide)
      | some v =>
        rw [hse] at hs
        refine ⟨fun h => absurd h h1, fun _ h => absurd h h2, fun _ _ => ⟨hr, ?_, hs⟩, ?_⟩
        · unfold satisfiedShown
          rw [hs]
          rfl
        · simp [hr, h3]

/-- Witness for C11: on the sample page the valid password 'Abcdef1!' hides the checklist
and shows the satisfied message. -/
theorem validatePassword_presentation_witness :
    (validatePassword { samplePage with passwordValue := utf16 "Abcdef1!" }).rulesShown
      = false ∧
    satisfiedShown (validatePassword { samplePage with passwordValue := utf16 "Abcdef1!" })
      = true :=
  have h := (validatePassword_presentation
    { samplePage with passwordValue := utf16 "Abcdef1!" } rfl rfl).2.2.1
    (by decide) (by decide)
  ⟨h.1, h.2.1⟩

/-- C12, the code at a failing input: clearing a field group hides its error element but
keeps the element's text, and `announceErrors` reads the text whether hidden or not. On the
sample page the password field is left empty (message 'Password is required'), then 'abc'
is typed, a non-empty invalid password whose verdict shows no error message; the text of
the earlier message is still in the error element, and a submit attempt announces it. -/
theorem announceErrors_reads_stale_text (g : FieldGroup) :
    (clearFieldState g).errorText = g.errorText ∧
    (showSuccess g).errorText = g.errorText ∧
    (run (construct samplePage)
      [.passwordBlur, .passwordInput (utf16 "abc")]).passwordGroup.errorShown = false ∧
    (run (construct samplePage)
      [.passwordBlur, .passwordInput (utf16 "abc")]).passwordGroup.errorText
        = "Password is required" ∧
    (run (construct samplePage)
      [.passwordBlur, .passwordInput (utf16 "abc"), .submit]).liveRegion
        = some "Form validation errors: Password: Password is required" := by
  refine ⟨rfl, rfl, ?_, ?_, ?_⟩ <;> decide

/-- C13: `closeSuccessModal` is idempotent: on every state, closing twice gives the state
that closing once gives. -/
theorem closeSuccessModal_idempotent (s : State) :
    closeSuccessModal (closeSuccessModal s) = closeSuccessModal s := by
  unfold closeSuccessModal
  cases hm : s.successModal with
  | none => simp [hm]
  | some m =>
    cases ht : s.trapHandler <;> cases hl : s.lastFocusedElement <;> simp [focus]

/-- C14, as the code has it: closing a modal that is not open keeps it closed, sets its
`aria-hidden` to 'true', detaches a recorded trap handler from the modal and clears it, and
leaves the modal's buttons as they are. It leaves the whole state unchanged when the page
has no modal, and when `aria-hidden` is already 'true', no trap handler is recorded and no
element is saved or the saved one already holds focus. -/
theorem closeSuccessModal_when_closed (s : State) (h : isModalOpen s = false) :
    isModalOpen (closeSuccessModal s) = false ∧
    (s.successModal = none → closeSuccessModal s = s) ∧
    (∀ m, s.successModal = some m →
      (∃ m1, (closeSuccessModal s).successModal = some m1 ∧ m1.shown = false ∧
        m1.ariaHidden = some "true" ∧ m1.buttons = m.buttons ∧
        (∀ t, s.trapHandler = some t → m1.keydownTraps = m.keydownTraps.erase t) ∧
        (s.trapHandler = none → m1.keydownTraps = m.keydownTraps)) ∧
      (closeSuccessModal s).trapHandler = none ∧
      (m.ariaHidden = some "true" → s.trapHandler = none →
        (s.lastFocusedElement = none ∨ s.lastFocusedElement = s.activeElement) →
        closeSuccessModal s = s)) := by
  cases s with
  | mk ev pv cv pt ct eg pg cg rules rs se sb ptg ctg lr sm smok ae lfe th tc vs pc =>
    cases sm with
    | none => simp [closeSuccessModal, isModalOpen]
    | some m =>
      cases m with
      | mk shown ah buttons traps =>
        simp only [isModalOpen] at h
        subst h
        cases th <;> cases lfe <;> simp [closeSuccessModal, isModalOpen, focus]
        · intro h1
          exact h1.symm
        · intro h1 h2
          exact ⟨h1.symm, h2⟩

/-- Witness for C14: the constructed sample page, whose modal is closed with `aria-hidden`
'true', no trap handler and no saved element, is left unchanged by a close. -/
theorem closeSuccessModal_when_closed_witness :
    closeSuccessModal (construct samplePage) = construct samplePage :=
  ((closeSuccessModal_when_closed (construct samplePage) (by decide)).2.2 _ rfl).2.2
    rfl rfl (Or.inl rfl)

/-- Counterexample to C14 as stated: open the modal of the sample page with the email input
focused, close it, move the focus to the password input; the modal is closed, and closing
it again moves the focus back to the email input. -/
theorem close_when_closed_moves_focus :
    isModalOpen
      (focus .passwordInput
        (closeSuccessModal (openSuccessModal (focus .emailInput (construct samplePage)))))
      = false ∧
    (focus .passwordInput
      (closeSuccessModal
        (openSuccessModal (focus .emailInput (construct samplePage))))).activeElement
      = some .passwordInput ∧
    (closeSuccessModal
      (focus .passwordInput
        (closeSuccessModal
          (openSuccessModal (focus .emailInput (construct samplePage)))))).activeElement
      = some .emailInput := by
  decide

/-- C15: with the modal open and `first`, `last` the first and last of its buttons, the key
trap moves focus to `first` on Tab without Shift from `last` and to `last` on Shift+Tab
from `first`, preventing the default action in both cases; for any other key, and for Tab
from any other position, it changes nothing and prevents nothing. With one trap attached,
a `keydown` on the modal does what the trap does. -/
theorem trap_wraps_focus (s : State) (m : Modal) (first last : Element) (e : KeyEvent)
    (hm : s.successModal = some m) (_hopen : isModalOpen s = true)
    (hfirst : m.buttons.head? = some first) (hlast : m.buttons.getLast? = some last) :
    (e.key = "Tab" → e.shiftKey = false → s.activeElement = some last →
      trap m.buttons e s = (focus first s, true)) ∧
    (e.key = "Tab" → e.shiftKey = true → s.activeElement = some first →
      trap m.buttons e s = (focus last s, true)) ∧
    (e.key ≠ "Tab" → trap m.buttons e s = (s, false)) ∧
    (e.shiftKey = false → s.activeElement ≠ some last → trap m.buttons e s = (s, false)) ∧
    (e.shiftKey = true → s.activeElement ≠ some first → trap m.buttons e s = (s, false)) ∧
    (∀ t, m.keydownTraps = [t] → modalKeydown e s = trap m.buttons e s) := by
  refine ⟨?_, ?_, ?_, ?_, ?_, ?_⟩
  · intro h1 h2 h3
    simp [trap, h1, h2, h3, hfirst, hlast, activeIs]
  · intro h1 h2 h3
    simp [trap, h1, h2, h3, hfirst, hlast, activeIs]
  · intro h1
    simp [trap, h1]
  · intro h2 h3
    by_cases h1 : e.key = "Tab" <;> simp [trap, h1, h2, h3, hfirst, hlast, activeIs]
  · intro h2 h3
    by_cases h1 : e.key = "Tab" <;> simp [trap, h1, h2, h3, hfirst, hlast, activeIs]
  · intro t ht
    simp [modalKeydown, hm, ht]

/-- Witness for C15 (Scenario F): on the sample page the opened modal has focus on its last
button, OK; Tab moves it to the first, the close button, and the default is prevented. -/
theorem trap_wraps_focus_witness :
    trap [.successModalClose, .successModalOk] ⟨"Tab", false⟩
        (openSuccessModal (construct samplePage))
      = (focus .successModalClose (openSuccessModal (construct samplePage)), true) :=
  (trap_wraps_focus (openSuccessModal (construct samplePage))
    { shown := true, ariaHidden := some "false",
      buttons := [.successModalClose, .successModalOk], keydownTraps := [0] }
    .successModalClose .successModalOk ⟨"Tab", false⟩ (by decide) (by decide) rfl rfl).1
    rfl rfl (by decide)

/-- C16, the code at a failing input: every `openSuccessModal` on a page with the modal
attaches one more key trap and `closeSuccessModal` detaches at most one, so two opens with
no close between them attach two traps, and the close that follows leaves the modal closed
with one trap still attached. The same state is reached through the listeners when a
second submission is made before the first completes. -/
theorem double_open_leaks_trap (s : State) :
    (s.successModal.isSome = true →
      attachedTraps (openSuccessModal s) = attachedTraps s + 1) ∧
    attachedTraps s ≤ attachedTraps (closeSuccessModal s) + 1 ∧
    isModalOpen (runModal (construct samplePage) [.openSuccessModal, .openSuccessModal])
      = true ∧
    attachedTraps (runModal (construct samplePage) [.openSuccessModal, .openSuccessModal])
      = 2 ∧
    isModalOpen
      (runModal (construct samplePage)
        [.openSuccessModal, .openSuccessModal, .closeSuccessModal]) = false ∧
    attachedTraps
      (runModal (construct samplePage)
        [.openSuccessModal, .openSuccessModal, .closeSuccessModal]) = 1 ∧
    isModalOpen
      (run (construct samplePage)
        (validEntries ++ [.submit, .emailBlur, .submit, .timer, .timer, .modalDismiss]))
      = false ∧
    attachedTraps
      (run (construct samplePage)
        (validEntries ++ [.submit, .emailBlur, .submit, .timer, .timer, .modalDismiss]))
      = 1 := by
  refine ⟨?_, ?_, by decide, by decide, by decide, by decide, by decide, by decide⟩
  · intro h
    cases hm : s.successModal with
    | none => rw [hm] at h; exact absurd h (by decide)
    | some m =>
      unfold openSuccessModal attachedTraps
      simp only [hm, focus]
      split_ifs <;> simp
  · cases hm : s.successModal with
    | none => simp [closeSuccessModal, attachedTraps, hm]
    | some m =>
      unfold closeSuccessModal attachedTraps
      simp only [hm, focus]
      cases s.trapHandler with
      | none => cases s.lastFocusedElement <;> simp
      | some t =>
        have hle : m.keydownTraps.length ≤ (m.keydownTraps.erase t).length + 1 := by
          rw [List.length_erase]
          split_ifs <;> omega
        cases s.lastFocusedElement <;> simpa using hle

/-- C17: on a page whose field groups contain their error elements, after each validator
the validated field's group never carries both markers, carries `valid` exactly when the
field is recorded valid, and carries `error` exactly when an error message is shown for
it, whatever the prior state and the input. -/
theorem validators_markers_agree (s : State)
    (hemail : s.emailGroup.errorInGroup = true)
    (hpassword : s.passwordGroup.errorInGroup = true)
    (hconfirm : s.confirmPasswordGroup.errorInGroup = true) :
    MarkersAgree (validateEmail s).emailGroup (validateEmail s).validationState.email ∧
    MarkersAgree (validatePassword s).passwordGroup
      (validatePassword s).validationState.password ∧
    MarkersAgree (validateConfirmPassword s).confirmPasswordGroup
      (validateConfirmPassword s).validationState.confirmPassword := by
  refine ⟨?_, ?_, ?_⟩
  · unfold MarkersAgree validateEmail
    simp only []
    split_ifs <;>
      simp [updateSubmitButton, showError, showSuccess, clearFieldState, hemail]
  · have hv := passwordView_validatePassword s
    unfold MarkersAgree
    by_cases h1 : s.passwordValue = []
    · have hp : (validatePassword s).validationState.password = false := by
        rw [validatePassword_password, h1]
        decide
      simp only [h1, if_true, passwordView, Prod.mk.injEq] at hv
      rw [hv.1, hp]
      simp [showError, clearFieldState]
    · by_cases h2 : (validatePassword s).validationState.password = false
      · simp only [h1, if_false, h2, if_true, passwordView, Prod.mk.injEq] at hv
        rw [hv.1, h2]
        simp [clearFieldState, hpassword]
      · have h3 : (validatePassword s).validationState.password = true := by
          simpa using h2
        simp only [h1, if_false, h3, Bool.true_eq_false, passwordView, Prod.mk.injEq] at hv
        rw [hv.1, h3]
        simp [showSuccess, clearFieldState, hpassword]
  · unfold MarkersAgree validateConfirmPassword
    simp only []
    split_ifs <;>
      simp [updateSubmitButton, showError, showSuccess, clearFieldState, hconfirm]

/-- Witness for C17: on the sample page the email group after validating the empty email
carries `error`, not `valid`, and shows its message. -/
theorem validators_markers_agree_witness :
    (validateEmail samplePage).emailGroup.valid = false ∧
    ((validateEmail samplePage).emailGroup.error = true ↔
      (validateEmail samplePage).emailGroup.errorShown = true) :=
  have h := (validators_markers_agree samplePage rfl rfl rfl).1
  ⟨h.2.1.trans (by decide), h.2.2⟩

/-- C18, the code at a failing input: whatever is pending, a validator that leaves the
form valid leaves the submit button enabled. On the sample page with valid entries,
`handleSubmit` disables the button and schedules the completion; a blur of the email field
before the completion runs `validateEmail`, whose `updateSubmitButton` enables the button
again while the label still reads 'Registering...'; a second submit then schedules a second
completion. -/
theorem validator_reenables_submit_while_pending (s : State) :
    (isFormValid (validateEmail s) = true → (validateEmail s).submitBtn.disabled = false) ∧
    (isFormValid (validatePassword s) = true →
      (validatePassword s).submitBtn.disabled = false) ∧
    (isFormValid (validateConfirmPassword s) = true →
      (validateConfirmPassword s).submitBtn.disabled = false) ∧
    (run (construct samplePage) (validEntries ++ [.submit])).submitBtn.disabled = true ∧
    (run (construct samplePage) (validEntries ++ [.submit])).pendingCompletions = 1 ∧
    (run (construct samplePage) (validEntries ++ [.submit, .emailBlur])).submitBtn.disabled
      = false ∧
    (run (construct samplePage) (validEntries ++ [.submit, .emailBlur])).submitBtn.text
      = "Registering..." ∧
    (run (construct samplePage) (validEntries ++ [.submit, .emailBlur])).pendingCompletions
      = 1 ∧
    (run (construct samplePage)
      (validEntries ++ [.submit, .emailBlur, .submit])).pendingCompletions = 2 := by
  obtain ⟨u1, h1⟩ := validateEmail_update s
  obtain ⟨u2, h2⟩ := validatePassword_update s
  obtain ⟨u3, h3⟩ := validateConfirmPassword_update s
  refine ⟨?_, ?_, ?_, by decide, by decide, by decide, by decide, by decide, by decide⟩
  · intro h
    rw [disabled_of_update _ _ h1, h]
    rfl
  · intro h
    rw [disabled_of_update _ _ h2, h]
    rfl
  · intro h
    rw [disabled_of_update _ _ h3, h]
    rfl

end FormValidator
